import Mathlib

/-!
# Authentication service: request gate, HTTP handlers and auth core

A shallow embedding of `authservice/internal/{api,auth,domain,repository,config}`,
and of the pagination in `productservice/routes`.

Conventions of the embedding.

* Go strings are Lean strings; `len` is the byte length of the UTF-8 encoding.
* Go `int` is the 64-bit integer: arithmetic on it wraps (`wrapInt`). Instants and
  durations are integers in nanoseconds, far from the ends of their range.
* A Go `error` is observed by the code only through `Error()` and `errors.Is`
  against package-level sentinel values, so an error value is the pair of its
  text and the sentinels found on its unwrap chain.
* Collaborators behind an interface (the user repository, the auth service seen
  from the handlers) are records of functions over an abstract world state.
* Third-party libraries (bcrypt, the JWT codec) and the clock are parameters;
  every theorem quantifies over them.
* Functions that call a collaborator also return the list of calls they made,
  so that "is never invoked" is a statement about that list.
-/

namespace Authservice

/-! ## Strings -/

/-- Go `len(s)` on a string: the number of bytes. -/
def len (s : String) : Nat := s.utf8ByteSize

/-- Splitting a rune sequence at every occurrence of a one-rune separator. -/
def splitChars (sep : Char) : List Char → List (List Char)
  | [] => [[]]
  | c :: cs =>
    if c = sep then [] :: splitChars sep cs
    else
      match splitChars sep cs with
      | [] => [[c]]
      | p :: ps => (c :: p) :: ps

/-- Go `strings.Split(s, sep)` for a separator of one ASCII rune (the source
splits at `" "`): all substrings between separators, `[""]` for the empty
string. -/
def Split (s : String) (sep : Char) : List String :=
  (splitChars sep s.data).map String.mk

/-- Lower case of one rune as `unicode.ToLower` computes it, as far as a
comparison with an ASCII word can tell: ASCII capitals, and the only two
non-ASCII runes whose lower case is an ASCII letter (the Kelvin sign and the
dotted capital I). Every other rune has a lower case outside ASCII and is left
in place. -/
def toLowerRune (c : Char) : Char :=
  if c = Char.ofNat 0x212A then 'k'
  else if c = Char.ofNat 0x130 then 'i'
  else if 'A'.toNat ≤ c.toNat ∧ c.toNat ≤ 'Z'.toNat then Char.ofNat (c.toNat + 32)
  else c

/-- Go `strings.ToLower`. -/
def ToLower (s : String) : String := String.mk (s.data.map toLowerRune)

/-! ## Errors -/

/-- Package-level error values that the code compares against with `errors.Is`. -/
inductive Sentinel
  | ErrUserNotFound
  | ErrEmailExists
  | ErrNoRows
  | ErrMismatchedHashAndPassword
  | ErrTokenMalformed
  | ErrTokenUnverifiable
  | ErrTokenSignatureInvalid
  | ErrTokenExpired
  | ErrTokenNotValidYet
  | ErrTokenInvalidClaims
  deriving DecidableEq, Repr

/-- The text each sentinel was created with. -/
def Sentinel.text : Sentinel → String
  | .ErrUserNotFound => "user not found"
  | .ErrEmailExists => "email already exists"
  | .ErrNoRows => "no rows in result set"
  | .ErrMismatchedHashAndPassword =>
      "crypto/bcrypt: hashedPassword is not the hash of the given password"
  | .ErrTokenMalformed => "token is malformed"
  | .ErrTokenUnverifiable => "token is unverifiable"
  | .ErrTokenSignatureInvalid => "token signature is invalid"
  | .ErrTokenExpired => "token is expired"
  | .ErrTokenNotValidYet => "token is not valid yet"
  | .ErrTokenInvalidClaims => "token has invalid claims"

/-- A Go error value: what `Error()` prints and which sentinels `errors.Is`
finds on its unwrap chain. -/
structure GoError where
  msg : String
  chain : List Sentinel
  deriving DecidableEq, Repr

/-- The error value of a sentinel (`errors.New` at package level). -/
def Sentinel.err (s : Sentinel) : GoError := ⟨s.text, [s]⟩

/-- Go `fmt.Errorf(msg)` without a wrapping verb. -/
def Errorf (msg : String) : GoError := ⟨msg, []⟩

/-- Go `fmt.Errorf(pfx + "%w", err)`. -/
def Wrapf (pfx : String) (err : GoError) : GoError := ⟨pfx ++ err.msg, err.chain⟩

/-- Go `errors.Is(err, target)` for a sentinel target. -/
def errorsIs (err : GoError) (target : Sentinel) : Bool := decide (target ∈ err.chain)

/-! ## Domain -/

/-- The `domain.User` record; times are instants in nanoseconds, `0` being the
zero `time.Time`. -/
structure User where
  ID : Int
  Email : String
  Password : String
  CreatedAt : Int
  UpdatedAt : Int
  deriving DecidableEq, Repr

/-- The `auth.Claims` record: the custom `user_id` and the registered claims the
service sets or the validator reads. Dates are instants in nanoseconds. -/
structure Claims where
  UserID : Int
  ExpiresAt : Option Int
  IssuedAt : Option Int
  NotBefore : Option Int
  Issuer : String
  deriving DecidableEq, Repr

/-- The `config.Config` fields the auth core reads. -/
structure Config where
  JWTSecret : String
  TokenTTL : Int
  deriving DecidableEq, Repr

/-! ## HTTP -/

/-- Keys of request-context values: the package's own `contextKey` string type,
or a key of any other type. -/
inductive CtxKey
  | contextKey (name : String)
  | foreign (name : String)
  deriving DecidableEq, Repr

/-- Values stored in a request context, by dynamic type. -/
inductive CtxVal
  | int64 (v : Int)
  | other (repr : String)
  deriving DecidableEq, Repr

/-- The constant `UserIDKey`. -/
def UserIDKey : CtxKey := .contextKey "userID"

/-- A request context: the chain of `WithValue` bindings, innermost first. -/
abbrev Context := List (CtxKey × CtxVal)

/-- Go `context.WithValue`. -/
def Context.WithValue (ctx : Context) (k : CtxKey) (v : CtxVal) : Context := (k, v) :: ctx

/-- Go `ctx.Value(key)`; `none` is the nil interface. -/
def Context.Value (ctx : Context) (k : CtxKey) : Option CtxVal := ctx.lookup k

/-- Go `http.Header`: canonical key to list of values. -/
abbrev HTTPHeader := List (String × List String)

/-- Go `Header.Get`: the first value under the key, `""` when there is none. -/
def HTTPHeader.Get (h : HTTPHeader) (key : String) : String :=
  match h.lookup key with
  | some (v :: _) => v
  | _ => ""

/-- The JSON body of a register or login request once decoded: both request
types have the fields `email` and `password`. -/
structure Credentials where
  Email : String
  Password : String
  deriving DecidableEq, Repr

/-- An inbound request: headers, the outcome of decoding the body as JSON
(`none` when the decoder fails) and the per-request context. -/
structure Request where
  Header : HTTPHeader
  Body : Option Credentials
  Ctx : Context
  deriving DecidableEq, Repr

/-- A JSON scalar in a response body; `time` is a `time.Time` instant. -/
inductive JVal
  | str (s : String)
  | num (n : Int)
  | time (t : Int)
  deriving DecidableEq, Repr

/-- What a handler wrote: status code, content type and the JSON object of the
body, field by field. -/
structure Response where
  status : Nat
  contentType : String
  body : List (String × JVal)
  deriving DecidableEq, Repr

/-- A downstream HTTP handler. -/
abbrev Handler := Request → Response

def StatusOK : Nat := 200
def StatusCreated : Nat := 201
def StatusBadRequest : Nat := 400
def StatusUnauthorized : Nat := 401
def StatusConflict : Nat := 409
def StatusInternalServerError : Nat := 500

/-- The handler helper `respondWithJSON`: marshalling the payloads used here
(flat objects of strings, integers and times) does not fail. -/
def respondWithJSON (code : Nat) (payload : List (String × JVal)) : Response :=
  ⟨code, "application/json", payload⟩

/-- The handler helper `respondWithError`: the payload is `ErrorResponse`. -/
def respondWithError (code : Nat) (message : String) : Response :=
  respondWithJSON code [("error", .str message)]

/-- The `auth.AuthService` interface over a world state `σ`. -/
structure AuthService (σ : Type) where
  Register : String → String → σ → Except GoError User × σ
  Login : String → String → σ → Except GoError String × σ
  VerifyToken : String → Except GoError Claims

/-- What one run of the gate did: the token strings it passed to `VerifyToken`,
the requests it passed to the downstream handler, and the response written. -/
structure GateRun where
  verified : List String
  served : List Request
  response : Response
  deriving DecidableEq, Repr

/-- The request gate `AuthMiddleware(authService)(next)` serving request `r`. -/
def AuthMiddleware {σ : Type} (authService : AuthService σ) (next : Handler)
    (r : Request) : GateRun :=
  let authHeader := r.Header.Get "Authorization"
  if authHeader = "" then
    ⟨[], [], respondWithError StatusUnauthorized "Authorization header required"⟩
  else
    let headerParts := Split authHeader ' '
    match headerParts with
    | [scheme, tokenString] =>
      if ToLower scheme ≠ "bearer" then
        ⟨[], [], respondWithError StatusUnauthorized
          "Invalid authorization header format (must be Bearer token)"⟩
      else
        match authService.VerifyToken tokenString with
        | .error _ =>
          ⟨[tokenString], [], respondWithError StatusUnauthorized "Invalid or expired token"⟩
        | .ok claims =>
          let ctx := r.Ctx.WithValue UserIDKey (.int64 claims.UserID)
          let r2 := { r with Ctx := ctx }
          ⟨[tokenString], [r2], next r2⟩
    | _ =>
      ⟨[], [], respondWithError StatusUnauthorized
        "Invalid authorization header format (must be Bearer token)"⟩

/-- The protected handler `GetUserProfile`. -/
def GetUserProfile (r : Request) : Response :=
  match r.Ctx.Value UserIDKey with
  | some (.int64 userID) => respondWithJSON StatusOK [("user_id", .num userID)]
  | _ => respondWithError StatusInternalServerError "Could not retrieve user information"

/-! ## Collaborators of the auth core -/

/-- The `repository.UserRepository` interface over a world state `σ`. -/
structure UserRepository (σ : Type) where
  CreateUser : User → σ → Except GoError Int × σ
  GetUserByEmail : String → σ → Except GoError User
  GetUserByID : Int → σ → Except GoError User

/-- The two bcrypt entry points the service calls. The random salt of
`GenerateFromPassword` is part of the function given; `CompareHashAndPassword`
returns `none` for Go `nil`. -/
structure Bcrypt where
  GenerateFromPassword : String → Except GoError String
  CompareHashAndPassword : String → String → Option GoError

/-! ## The JWT library (github.com/golang-jwt/jwt/v5)

Third-party code the service calls. Its control flow (`ParseWithClaims`,
`SignedString`, the default validator, the method registry) is written out
here; the keyed hash and the wire format stay parameters (`JWT`). Decoding the
signature segment is folded into `decode`, so a token with several independent
defects may get another of its errors than the library reports first; which
tokens are accepted, and which rejections are classified as expired, is the
same. -/

/-- The signing method types registered by the library. -/
inductive SigningMethod
  | HMAC (alg : String)
  | RSA (alg : String)
  | RSAPSS (alg : String)
  | ECDSA (alg : String)
  | Ed25519
  | None
  deriving DecidableEq, Repr

/-- The library registry `jwt.GetSigningMethod`: `none` for an unregistered name. -/
def GetSigningMethod : String → Option SigningMethod
  | "HS256" => some (.HMAC "HS256")
  | "HS384" => some (.HMAC "HS384")
  | "HS512" => some (.HMAC "HS512")
  | "RS256" => some (.RSA "RS256")
  | "RS384" => some (.RSA "RS384")
  | "RS512" => some (.RSA "RS512")
  | "PS256" => some (.RSAPSS "PS256")
  | "PS384" => some (.RSAPSS "PS384")
  | "PS512" => some (.RSAPSS "PS512")
  | "ES256" => some (.ECDSA "ES256")
  | "ES384" => some (.ECDSA "ES384")
  | "ES512" => some (.ECDSA "ES512")
  | "EdDSA" => some .Ed25519
  | "none" => some .None
  | _ => none

/-- The constant `jwt.SigningMethodHS256`. -/
def SigningMethodHS256 : SigningMethod := .HMAC "HS256"

/-- The `Alg()` name of a signing method. -/
def SigningMethod.Alg : SigningMethod → String
  | .HMAC a => a
  | .RSA a => a
  | .RSAPSS a => a
  | .ECDSA a => a
  | .Ed25519 => "EdDSA"
  | .None => "none"

/-- What the parser reads off a well-formed compact token: the signed text (the
first two segments with their dot), the `alg` entry of the header when it is a
string, the claims of the payload, and the signature segment. -/
structure Segments where
  text : String
  alg : Option String
  claims : Claims
  sig : String
  deriving DecidableEq, Repr

/-- The primitives of the token codec: splitting and decoding a compact token
(`none` when it is malformed), the signing text of a header and claims, and the
keyed hash of a text under the hash named by `alg`, as a signature segment. -/
structure JWT where
  decode : String → Option Segments
  SigningString : String → Claims → String
  hmac : String → String → String → String

/-- A parsed token as `ParseWithClaims` returns it. -/
structure Token where
  Method : SigningMethod
  Claims : Claims
  Valid : Bool
  deriving DecidableEq, Repr

/-- Go `jwt.NewNumericDate`: the instant truncated to whole seconds. -/
def NewNumericDate (t : Int) : Int := t - t % 1000000000

/-- The library method `Token.SignedString` for a byte-slice key: header and
claims, a dot, the signature. Only the HMAC methods sign with such a key. -/
def SignedString (jwt : JWT) (method : SigningMethod) (claims : Claims) (key : String) :
    Except GoError String :=
  match method with
  | .HMAC alg =>
    let text := jwt.SigningString alg claims
    .ok (text ++ "." ++ jwt.hmac alg key text)
  | _ => .error (Errorf "key is of invalid type")

/-- The library method `SigningMethod.Verify` for a byte-slice key: the HMAC
methods recompute the keyed hash; every other method refuses the key type. -/
def SigningMethod.Verify (jwt : JWT) (m : SigningMethod) (text sig key : String) : Bool :=
  match m with
  | .HMAC alg => decide (jwt.hmac alg key text = sig)
  | _ => false

/-- The library validator with default options at clock reading `now`: `exp`
and `nbf` are checked when present, every failure is collected. -/
def Validate (now : Int) (c : Claims) : Option GoError :=
  let expired : Bool := match c.ExpiresAt with
    | some exp => decide (¬ now < exp)
    | none => false
  let early : Bool := match c.NotBefore with
    | some nbf => decide (now < nbf)
    | none => false
  match expired, early with
  | false, false => none
  | true, false => some Sentinel.ErrTokenExpired.err
  | false, true => some Sentinel.ErrTokenNotValidYet.err
  | true, true =>
    some ⟨"token is expired, token is not valid yet",
      [Sentinel.ErrTokenExpired, Sentinel.ErrTokenNotValidYet]⟩

/-- The library helper `newError(message, err, more)` with one wrapped cause. -/
def newError (message : String) (err : Sentinel) (more : GoError) : GoError :=
  if message = "" then ⟨err.text ++ ": " ++ more.msg, err :: more.chain⟩
  else ⟨err.text ++ ": " ++ message ++ ": " ++ more.msg, err :: more.chain⟩

/-- The library function `jwt.ParseWithClaims` with default parser options:
decode, look the method up, ask the key function for the key, verify the
signature, validate the claims at clock reading `now`. -/
def ParseWithClaims (jwt : JWT) (now : Int) (tokenString : String)
    (keyFunc : SigningMethod → Option String → Except GoError String) :
    Except GoError Token :=
  match jwt.decode tokenString with
  | none => .error Sentinel.ErrTokenMalformed.err
  | some seg =>
    match seg.alg with
    | none =>
      .error (newError "" .ErrTokenUnverifiable (Errorf "signing method (alg) is unspecified"))
    | some alg =>
      match GetSigningMethod alg with
      | none =>
        .error (newError "" .ErrTokenUnverifiable (Errorf "signing method (alg) is unavailable"))
      | some method =>
        match keyFunc method seg.alg with
        | .error err => .error (newError "error while executing keyfunc" .ErrTokenUnverifiable err)
        | .ok key =>
          if method.Verify jwt seg.text seg.sig key then
            match Validate now seg.claims with
            | some err => .error (newError "" .ErrTokenInvalidClaims err)
            | none => .ok ⟨method, seg.claims, true⟩
          else
            .error (newError "" .ErrTokenSignatureInvalid (Errorf "signature is invalid"))

/-! ## The auth core (`auth.authService`) -/

/-- What one call of `authService.Register` did: its result, the world state
after it, and the users it handed to `CreateUser`. -/
structure RegisterRun (σ : Type) where
  result : Except GoError User
  state : σ
  created : List User

/-- The method `authService.Register`. -/
def authService.Register {σ : Type} (userRepo : UserRepository σ) (bcrypt : Bcrypt)
    (email password : String) (s : σ) : RegisterRun σ :=
  match bcrypt.GenerateFromPassword password with
  | .error err => ⟨.error (Wrapf "failed to hash password: " err), s, []⟩
  | .ok hashedPassword =>
    let user : User :=
      { ID := 0, Email := email, Password := hashedPassword, CreatedAt := 0, UpdatedAt := 0 }
    match userRepo.CreateUser user s with
    | (.error err, s2) =>
      if errorsIs err .ErrEmailExists then ⟨.error err, s2, [user]⟩
      else ⟨.error (Wrapf "failed to create user: " err), s2, [user]⟩
    | (.ok userID, s2) => ⟨.ok { user with ID := userID, Password := "" }, s2, [user]⟩

/-- The claims `authService.Login` builds for `user`, from the two clock readings
it takes: `t1` for the expiry, `t2` for the issue time. -/
def loginClaims (cfg : Config) (t1 t2 : Int) (user : User) : Claims :=
  let expirationTime := t1 + cfg.TokenTTL
  { UserID := user.ID
    ExpiresAt := some (NewNumericDate expirationTime)
    IssuedAt := some (NewNumericDate t2)
    NotBefore := none
    Issuer := "authservice" }

/-- The method `authService.Login`; `t1` and `t2` are its two readings of the
clock, in order. -/
def authService.Login {σ : Type} (userRepo : UserRepository σ) (bcrypt : Bcrypt) (jwt : JWT)
    (cfg : Config) (t1 t2 : Int) (email password : String) (s : σ) : Except GoError String :=
  match userRepo.GetUserByEmail email s with
  | .error err =>
    if errorsIs err .ErrUserNotFound then .error (Errorf "invalid credentials")
    else .error (Wrapf "failed to get user: " err)
  | .ok user =>
    match bcrypt.CompareHashAndPassword user.Password password with
    | some err =>
      if errorsIs err .ErrMismatchedHashAndPassword then .error (Errorf "invalid credentials")
      else .error (Wrapf "password comparison failed: " err)
    | none =>
      let claims := loginClaims cfg t1 t2 user
      match SignedString jwt SigningMethodHS256 claims cfg.JWTSecret with
      | .error err => .error (Wrapf "failed to sign token: " err)
      | .ok tokenString => .ok tokenString

/-- The key function `VerifyToken` gives the parser: the secret for a method of
the HMAC type, an error for any other. -/
def verifyKeyFunc (cfg : Config) (method : SigningMethod) (alg : Option String) :
    Except GoError String :=
  match method with
  | .HMAC _ => .ok cfg.JWTSecret
  | _ => .error (Errorf ("unexpected signing method: " ++ alg.getD ""))

/-- The method `authService.VerifyToken` at clock reading `now`. -/
def authService.VerifyToken (jwt : JWT) (cfg : Config) (now : Int) (tokenString : String) :
    Except GoError Claims :=
  match ParseWithClaims jwt now tokenString (verifyKeyFunc cfg) with
  | .error err =>
    if errorsIs err .ErrTokenExpired then .error (Errorf "token has expired")
    else .error (Wrapf "invalid token: " err)
  | .ok token =>
    if !token.Valid then .error (Errorf "invalid token")
    else .ok token.Claims

/-- The constructor `NewAuthService`, with the environment of the service made
explicit: the hasher, the codec, and the clock readings of `Login` (`t1`, `t2`)
and of `VerifyToken` (`tv`). -/
def NewAuthService {σ : Type} (userRepo : UserRepository σ) (bcrypt : Bcrypt) (jwt : JWT)
    (cfg : Config) (t1 t2 tv : Int) : AuthService σ :=
  { Register := fun email password s =>
      let run := authService.Register userRepo bcrypt email password s
      (run.result, run.state)
    Login := fun email password s =>
      (authService.Login userRepo bcrypt jwt cfg t1 t2 email password s, s)
    VerifyToken := fun tokenString => authService.VerifyToken jwt cfg tv tokenString }

/-! ## The HTTP handlers (`api.AuthHandler`) -/

/-- What one run of a handler did: the response written, the world state after
it, and the (email, password) pairs it passed to the auth service. -/
structure HandlerRun (σ : Type) where
  response : Response
  state : σ
  calls : List (String × String)

/-- The JSON object of a `domain.User`: the password field is tagged `json:"-"`. -/
def userJSON (u : User) : List (String × JVal) :=
  [("id", .num u.ID), ("email", .str u.Email), ("created_at", .time u.CreatedAt),
    ("updated_at", .time u.UpdatedAt)]

/-- The handler `AuthHandler.Register`. -/
def AuthHandler.Register {σ : Type} (h : AuthService σ) (r : Request) (s : σ) : HandlerRun σ :=
  match r.Body with
  | none => ⟨respondWithError StatusBadRequest "Invalid request payload", s, []⟩
  | some req =>
    if req.Email = "" ∨ req.Password = "" then
      ⟨respondWithError StatusBadRequest "Email and password are required", s, []⟩
    else if len req.Password < 6 then
      ⟨respondWithError StatusBadRequest "Password must be at least 6 characters long", s, []⟩
    else
      match h.Register req.Email req.Password s with
      | (.error err, s2) =>
        if errorsIs err .ErrEmailExists then
          ⟨respondWithError StatusConflict "Email already exists", s2,
            [(req.Email, req.Password)]⟩
        else
          ⟨respondWithError StatusInternalServerError "Failed to register user", s2,
            [(req.Email, req.Password)]⟩
      | (.ok user, s2) =>
        ⟨respondWithJSON StatusCreated (userJSON user), s2, [(req.Email, req.Password)]⟩

/-- The handler `AuthHandler.Login`. -/
def AuthHandler.Login {σ : Type} (h : AuthService σ) (r : Request) (s : σ) : HandlerRun σ :=
  match r.Body with
  | none => ⟨respondWithError StatusBadRequest "Invalid request payload", s, []⟩
  | some req =>
    if req.Email = "" ∨ req.Password = "" then
      ⟨respondWithError StatusBadRequest "Email and password are required", s, []⟩
    else
      match h.Login req.Email req.Password s with
      | (.error err, s2) =>
        if err.msg = "invalid credentials" then
          ⟨respondWithError StatusUnauthorized "Invalid email or password", s2,
            [(req.Email, req.Password)]⟩
        else
          ⟨respondWithError StatusInternalServerError "Failed to login", s2,
            [(req.Email, req.Password)]⟩
      | (.ok token, s2) =>
        ⟨respondWithJSON StatusOK [("token", .str token)], s2, [(req.Email, req.Password)]⟩

/-- The word "bearer" with each letter in either case. -/
def IsBearerAnyCase (s : String) : Prop :=
  List.Forall₂ (fun c p => c = p.1 ∨ c = p.2) s.data
    [('b', 'B'), ('e', 'E'), ('a', 'A'), ('r', 'R'), ('e', 'E'), ('r', 'R')]

/-- Spec wording for the request gate: the header is the scheme word in any
letter case, one space, and `token`, a string without a space. -/
def BearerHeader (header token : String) : Prop :=
  ∃ scheme, header = scheme ++ " " ++ token ∧ IsBearerAnyCase scheme ∧ ' ' ∉ token.data

/-! ## Concrete instances used to evaluate the model -/

/-- A request that carries the given `Authorization` value and nothing else. -/
def requestWithAuthorization (v : String) : Request := ⟨[("Authorization", [v])], none, []⟩

/-- A request without any header. -/
def bareRequest : Request := ⟨[], none, []⟩

/-- An auth service stub whose `VerifyToken` accepts the one token `"good"`,
for subject 7, and rejects every other string. -/
def stubService : AuthService Unit :=
  { Register := fun _ _ s => (.error (Errorf "not available"), s)
    Login := fun _ _ s => (.error (Errorf "not available"), s)
    VerifyToken := fun t =>
      if t = "good" then .ok ⟨7, none, none, none, "authservice"⟩
      else .error (Errorf "invalid token") }

/-- An in-memory user repository over the list of stored users: ids are given in
order of creation, a second user with a stored email is refused. -/
def memRepo : UserRepository (List User) :=
  { CreateUser := fun u s =>
      if s.any (fun v => v.Email = u.Email) then (.error Sentinel.ErrEmailExists.err, s)
      else (.ok (s.length + 1), s ++ [{ u with ID := s.length + 1 }])
    GetUserByEmail := fun email s =>
      match s.find? (fun v => v.Email = email) with
      | some u => .ok u
      | none => .error Sentinel.ErrUserNotFound.err
    GetUserByID := fun id s =>
      match s.find? (fun v => v.ID = id) with
      | some u => .ok u
      | none => .error Sentinel.ErrUserNotFound.err }

/-- A stand-in for bcrypt with the same interface: the artifact is a tag and the
reversed password; an artifact without the tag is refused as malformed. -/
def toyBcrypt : Bcrypt :=
  { GenerateFromPassword := fun p => .ok (String.mk ("$toy$".data ++ p.data.reverse))
    CompareHashAndPassword := fun h p =>
      if h.data.take 5 ≠ "$toy$".data then some (Errorf "hashedSecret too short")
      else if h.data.drop 5 = p.data.reverse then none
      else some Sentinel.ErrMismatchedHashAndPassword.err }

/-- Decimal digits of an integer. -/
def showInt : Int → List Char
  | .ofNat n => Nat.toDigits 10 n
  | .negSucc n => '-' :: Nat.toDigits 10 (n + 1)

/-- Reading a natural number from decimal digits. -/
def readNat (cs : List Char) : Option Nat :=
  if cs = [] ∨ cs.any (fun c => c.toNat < 48 ∨ 57 < c.toNat) then none
  else some (cs.foldl (fun a c => a * 10 + (c.toNat - 48)) 0)

/-- Reading an integer from an optional sign and decimal digits. -/
def readInt : List Char → Option Int
  | '-' :: cs => (readNat cs).map (fun n => -(n : Int))
  | cs => (readNat cs).map (fun n => (n : Int))

/-- Reading an optional integer field: the empty field is an absent claim. -/
def readOptInt (cs : List Char) : Option (Option Int) :=
  if cs = [] then some none else (readInt cs).map some

/-- Writing an optional integer field. -/
def showOptInt : Option Int → List Char
  | none => []
  | some i => showInt i

/-- A stand-in for the token codec with the same interface. A token is
`alg.claims.signature`; the claims are five comma-separated fields (subject,
expiry, issue time, not-before, issuer); the keyed hash is a polynomial checksum
of the hash name, the key and the text, in decimal. -/
def toyJWT : JWT :=
  { SigningString := fun alg c =>
      String.mk (alg.data ++ '.' :: (showInt c.UserID ++ ',' :: showOptInt c.ExpiresAt
        ++ ',' :: showOptInt c.IssuedAt ++ ',' :: showOptInt c.NotBefore ++ ',' :: c.Issuer.data))
    hmac := fun alg key text =>
      String.mk (Nat.toDigits 10
        ((alg.data ++ '|' :: key.data ++ '|' :: text.data).foldl
          (fun a c => (a * 131 + c.toNat) % 1000000007) 7))
    decode := fun tok =>
      match splitChars '.' tok.data with
      | [hdr, payload, sig] =>
        match splitChars ',' payload with
        | [uid, exp, iat, nbf, iss] =>
          match readInt uid, readOptInt exp, readOptInt iat, readOptInt nbf with
          | some u, some e, some i, some n =>
            some ⟨String.mk (hdr ++ '.' :: payload),
              if hdr = [] then none else some (String.mk hdr),
              ⟨u, e, i, n, String.mk iss⟩, String.mk sig⟩
          | _, _, _, _ => none
        | _ => none
      | _ => none }

/-- A configuration for the concrete instances: a secret and a TTL of one hour. -/
def toyConfig : Config := ⟨"s3cret", 3600000000000⟩

/-- The store after `a@x.com` registered with the password `secret1`. -/
def storeWithAlice : List User := [⟨1, "a@x.com", "$toy$1terces", 0, 0⟩]

/-- Results of fallible calls can be compared when their parts can. -/
instance instDecidableEqExcept {ε α : Type} [DecidableEq ε] [DecidableEq α] :
    DecidableEq (Except ε α)
  | .ok a, .ok b =>
    if h : a = b then isTrue (by rw [h]) else isFalse (by intro e; cases e; exact h rfl)
  | .error a, .error b =>
    if h : a = b then isTrue (by rw [h]) else isFalse (by intro e; cases e; exact h rfl)
  | .ok _, .error _ => isFalse (by intro e; cases e)
  | .error _, .ok _ => isFalse (by intro e; cases e)

/-- The auth service of the concrete instances: in-memory store, stand-in hasher
and codec, clock readings a little after 1.7e18 ns. -/
def toyService : AuthService (List User) :=
  NewAuthService memRepo toyBcrypt toyJWT toyConfig 1700000000123456789 1700000000123456999
    1700000001000000000

/-- A request whose body decodes to the given email and password. -/
def requestWithBody (email password : String) : Request := ⟨[], some ⟨email, password⟩, []⟩

/-- The configuration of the concrete instances with a TTL of zero. -/
def toyConfigZeroTTL : Config := ⟨"s3cret", 0⟩

/-! ## The PostgreSQL user repository (`repository.postgresUserRepository`) -/

/-- The connection pool as `CreateUser` uses it: `QueryRow(...).Scan(&userID)`
for the INSERT with its four arguments (email, password hash, created_at,
updated_at), giving the scanned id or the driver error. -/
structure Pool (σ : Type) where
  QueryRowScan : String → String → Int → Int → σ → Except GoError Int × σ

/-- The method `postgresUserRepository.CreateUser` at clock reading `now`,
returning the Go pair (id, error) with `none` for `nil`. The branch on
`pgx.ErrNoRows` in the source has an empty body. -/
def postgresUserRepository.CreateUser {σ : Type} (pool : Pool σ) (now : Int) (user : User)
    (s : σ) : (Int × Option GoError) × σ :=
  match pool.QueryRowScan user.Email user.Password now now s with
  | (.error err, s2) =>
    if err.msg = "unique constraint violation" then ((0, some Sentinel.ErrEmailExists.err), s2)
    else ((0, some err), s2)
  | (.ok userID, s2) => ((userID, none), s2)

/-- A pool whose INSERT always fails with the given driver error. -/
def failingPool (err : GoError) : Pool Unit :=
  { QueryRowScan := fun _ _ _ _ s => (.error err, s) }

/-! ## Product service: pagination in `routes.listProducts` -/

/-- The largest value of the 64-bit Go `int`. -/
def maxInt : Int := 9223372036854775807

/-- The smallest value of the 64-bit Go `int`. -/
def minInt : Int := -9223372036854775808

/-- The result of Go arithmetic on the 64-bit `int`: the exact result wrapped
into the two's complement range. -/
def wrapInt (x : Int) : Int := (x + 9223372036854775808) % 18446744073709551616 - 9223372036854775808

/-- The value Go `strconv.Atoi` returns (its error is dropped by the caller):
an optional sign and decimal digits; 0 for anything else; the nearest end of
the `int` range for a number outside it. -/
def Atoi (s : String) : Int :=
  let signed : Bool × List Char :=
    match s.data with
    | '-' :: cs => (true, cs)
    | '+' :: cs => (false, cs)
    | cs => (false, cs)
  match readNat signed.2 with
  | none => 0
  | some n =>
    if signed.1 then (if (n : Int) > 9223372036854775808 then minInt else -(n : Int))
    else (if (n : Int) > maxInt then maxInt else (n : Int))

/-- The slice bounds `listProducts` computes from the query values `page` and
`limit` for `len(filtered) = n`: the pair (start, end) at the slice expression. -/
def listProducts.bounds (pageStr limitStr : String) (n : Nat) : Int × Int :=
  let page := Atoi pageStr
  let limit := Atoi limitStr
  let page := if page < 1 then 1 else page
  let limit := if limit < 1 then 5 else limit
  let start := wrapInt (wrapInt (page - 1) * limit)
  let stop := wrapInt (start + limit)
  let start := if start > (n : Int) then (n : Int) else start
  let stop := if stop > (n : Int) then (n : Int) else stop
  (start, stop)

/-- The Go slice expression `xs[lo:hi]` on a slice whose capacity is its
length: `none` when it panics with bounds out of range. -/
def sliceExpr {α : Type} (xs : List α) (lo hi : Int) : Option (List α) :=
  if 0 ≤ lo ∧ lo ≤ hi ∧ hi ≤ (xs.length : Int) then
    some ((xs.drop lo.toNat).take (hi.toNat - lo.toNat))
  else none

/-- The page `listProducts` encodes for the filtered products: `none` when the
slice expression panics. The fields of a product play no part. -/
def listProducts.paginated {α : Type} (pageStr limitStr : String) (filtered : List α) :
    Option (List α) :=
  let b := listProducts.bounds pageStr limitStr filtered.length
  sliceExpr filtered b.1 b.2

/-- The length guard at the head of `bcrypt.GenerateFromPassword`: a password of
more than 72 bytes is refused with `ErrPasswordTooLong`, any other goes on to
the hashing proper. The service never compares against that error value, so its
chain is empty. -/
def GenerateFromPassword (hash : String → Except GoError String) (password : String) :
    Except GoError String :=
  if len password > 72 then .error (Errorf "bcrypt: password length exceeds 72 bytes")
  else hash password

/-- The stand-in hasher behind the length guard of bcrypt. -/
def toyBcryptGuarded : Bcrypt :=
  { GenerateFromPassword := GenerateFromPassword toyBcrypt.GenerateFromPassword
    CompareHashAndPassword := toyBcrypt.CompareHashAndPassword }

/-- A password of 73 bytes. -/
def longPassword : String := String.mk (List.replicate 73 'a')

/-! # Theorems -/

set_option maxRecDepth 100000

/-! ## Splitting and lower case -/

theorem splitChars_ne_nil (sep : Char) (l : List Char) : splitChars sep l ≠ [] := by
  cases l with
  | nil => simp [splitChars]
  | cons c cs =>
    unfold splitChars
    split
    · simp
    · split <;> simp

theorem splitChars_single {sep : Char} {l b : List Char} (h : splitChars sep l = [b]) :
    l = b ∧ sep ∉ b := by
  induction l generalizing b with
  | nil => simp [splitChars] at h; subst h; simp
  | cons c cs ih =>
    unfold splitChars at h
    split at h
    · simp at h
      exact absurd h.2 (splitChars_ne_nil sep cs)
    · rename_i hc
      split at h
      · rename_i hnil
        exact absurd hnil (splitChars_ne_nil sep cs)
      · rename_i p ps hps
        simp at h
        obtain ⟨h1, h2⟩ := h
        subst h2
        subst h1
        obtain ⟨e, hn⟩ := ih hps
        subst e
        refine ⟨rfl, ?_⟩
        simp only [List.mem_cons, not_or]
        exact ⟨fun h => hc h.symm, hn⟩

theorem splitChars_pair {sep : Char} {l a b : List Char} (h : splitChars sep l = [a, b]) :
    l = a ++ sep :: b ∧ sep ∉ a ∧ sep ∉ b := by
  induction l generalizing a with
  | nil => simp [splitChars] at h
  | cons c cs ih =>
    unfold splitChars at h
    split at h
    · rename_i hc
      simp at h
      obtain ⟨h1, h2⟩ := h
      subst h1
      obtain ⟨e, hn⟩ := splitChars_single h2
      subst e; subst hc
      simp [hn]
    · rename_i hc
      split at h
      · simp at h
      · rename_i p ps hps
        simp at h
        obtain ⟨h1, h2⟩ := h
        subst h2
        subst h1
        obtain ⟨e, hna, hnb⟩ := ih hps
        subst e
        refine ⟨rfl, ?_, hnb⟩
        simp only [List.mem_cons, not_or]
        exact ⟨fun h => hc h.symm, hna⟩

theorem splitChars_of_not_mem {sep : Char} {a : List Char} (h : sep ∉ a) :
    splitChars sep a = [a] := by
  induction a with
  | nil => rfl
  | cons c cs ih =>
    simp only [List.mem_cons, not_or] at h
    unfold splitChars
    rw [if_neg (fun e => h.1 e.symm), ih h.2]

theorem splitChars_append {sep : Char} {a : List Char} (rest : List Char) (h : sep ∉ a) :
    splitChars sep (a ++ sep :: rest) = a :: splitChars sep rest := by
  induction a with
  | nil => simp [splitChars]
  | cons c cs ih =>
    simp only [List.mem_cons, not_or] at h
    simp only [List.cons_append]
    rw [splitChars, if_neg (fun e => h.1 e.symm), ih h.2]

theorem splitChars_pair_iff {sep : Char} {l a b : List Char} :
    splitChars sep l = [a, b] ↔ l = a ++ sep :: b ∧ sep ∉ a ∧ sep ∉ b := by
  constructor
  · exact splitChars_pair
  · rintro ⟨rfl, ha, hb⟩
    rw [splitChars_append b ha, splitChars_of_not_mem hb]

theorem char_eq_of_toNat_eq {a b : Char} (h : a.toNat = b.toNat) : a = b := by
  rw [← Char.ofNat_toNat a, ← Char.ofNat_toNat b, h]

theorem toNat_ofNat_add32 (n : Nat) (h1 : 65 ≤ n) (h2 : n ≤ 90) :
    (Char.ofNat (n + 32)).toNat = n + 32 := by
  interval_cases n <;> rfl

theorem toLowerRune_eq_iff (c lo up : Char)
    (hlo : 97 ≤ lo.toNat ∧ lo.toNat ≤ 122) (hk : lo ≠ 'k') (hi : lo ≠ 'i')
    (hup : up.toNat + 32 = lo.toNat) :
    toLowerRune c = lo ↔ c = lo ∨ c = up := by
  have hA : 'A'.toNat = 65 := rfl
  have hZ : 'Z'.toNat = 90 := rfl
  have hK : (Char.ofNat 0x212A).toNat = 0x212A := rfl
  have hI : (Char.ofNat 0x130).toNat = 0x130 := rfl
  unfold toLowerRune
  rw [hA, hZ]
  split_ifs with h1 h2 h3
  · subst h1
    constructor
    · intro h; exact absurd h.symm hk
    · rintro (h | h)
      · have := congrArg Char.toNat h; omega
      · have := congrArg Char.toNat h; omega
  · subst h2
    constructor
    · intro h; exact absurd h.symm hi
    · rintro (h | h)
      · have := congrArg Char.toNat h; omega
      · have := congrArg Char.toNat h; omega
  · constructor
    · intro h
      right
      apply char_eq_of_toNat_eq
      have := congrArg Char.toNat h
      rw [toNat_ofNat_add32 _ h3.1 h3.2] at this
      omega
    · rintro (h | h)
      · have := congrArg Char.toNat h; omega
      · subst h
        rw [hup, Char.ofNat_toNat]
  · constructor
    · intro h; exact Or.inl h
    · rintro (h | h)
      · exact h
      · subst h
        exfalso; apply h3; omega

theorem toLower_bearer_iff (s : String) : ToLower s = "bearer" ↔ IsBearerAnyCase s := by
  have hb := fun c => toLowerRune_eq_iff c 'b' 'B' (by decide) (by decide) (by decide) rfl
  have he := fun c => toLowerRune_eq_iff c 'e' 'E' (by decide) (by decide) (by decide) rfl
  have ha := fun c => toLowerRune_eq_iff c 'a' 'A' (by decide) (by decide) (by decide) rfl
  have hr := fun c => toLowerRune_eq_iff c 'r' 'R' (by decide) (by decide) (by decide) rfl
  unfold ToLower IsBearerAnyCase
  rw [String.ext_iff]
  show List.map toLowerRune s.data = ['b', 'e', 'a', 'r', 'e', 'r'] ↔ _
  rcases s with ⟨l⟩
  simp only
  match l with
  | [] => simp
  | [_] => simp
  | [_, _] => simp
  | [_, _, _] => simp
  | [_, _, _, _] => simp
  | [_, _, _, _, _] => simp
  | [c1, c2, c3, c4, c5, c6] => simp [hb, he, ha, hr]
  | _ :: _ :: _ :: _ :: _ :: _ :: _ :: _ => simp

theorem not_space_of_bearer {s : String} (h : IsBearerAnyCase s) : ' ' ∉ s.data := by
  rcases s with ⟨l⟩
  unfold IsBearerAnyCase at h
  simp only at h ⊢
  match l, h with
  | [c1, c2, c3, c4, c5, c6], h =>
    simp only [List.forall₂_cons, List.forall₂_nil_right_iff, and_true] at h
    obtain ⟨h1, h2, h3, h4, h5, h6⟩ := h
    intro hm
    simp only [List.mem_cons, List.mem_nil_iff, or_false] at hm
    rcases hm with e | e | e | e | e | e
    · rw [← e] at h1; revert h1; decide
    · rw [← e] at h2; revert h2; decide
    · rw [← e] at h3; revert h3; decide
    · rw [← e] at h4; revert h4; decide
    · rw [← e] at h5; revert h5; decide
    · rw [← e] at h6; revert h6; decide

theorem Split_pair_iff {s a b : String} :
    Split s ' ' = [a, b] ↔ s = a ++ " " ++ b ∧ ' ' ∉ a.data ∧ ' ' ∉ b.data := by
  have hs : s = a ++ " " ++ b ↔ s.data = a.data ++ ' ' :: b.data := by
    rw [String.ext_iff]
    simp [String.data_append]
  rw [hs, ← splitChars_pair_iff]
  unfold Split
  constructor
  · intro h
    have := congrArg (List.map String.data) h
    simpa [List.map_map, Function.comp_def] using this
  · intro h
    rw [h]
    rfl

/-- The gate forwards exactly when the header splits into the scheme word and a
token that `VerifyToken` accepts; this lemma is the split side. -/
theorem Split_bearer_iff {header scheme token : String} :
    (Split header ' ' = [scheme, token] ∧ ToLower scheme = "bearer") ↔
      (header = scheme ++ " " ++ token ∧ IsBearerAnyCase scheme ∧ ' ' ∉ token.data) := by
  rw [Split_pair_iff, toLower_bearer_iff]
  constructor
  · rintro ⟨⟨h1, _, h3⟩, h4⟩; exact ⟨h1, h4, h3⟩
  · rintro ⟨h1, h2, h3⟩; exact ⟨⟨h1, not_space_of_bearer h2, h3⟩, h2⟩

theorem BearerHeader_ne_empty {header token : String} (h : BearerHeader header token) :
    header ≠ "" := by
  obtain ⟨scheme, rfl, _, _⟩ := h
  intro e
  have := congrArg String.length e
  simp only [String.length_append] at this
  have h1 : " ".length = 1 := rfl
  have h2 : "".length = 0 := rfl
  omega

theorem gate_missing {σ : Type} (svc : AuthService σ) (next : Handler) (r : Request)
    (h : r.Header.Get "Authorization" = "") :
    AuthMiddleware svc next r =
      ⟨[], [], respondWithError StatusUnauthorized "Authorization header required"⟩ := by
  unfold AuthMiddleware
  simp [h]

theorem gate_malformed {σ : Type} (svc : AuthService σ) (next : Handler) (r : Request)
    (h0 : r.Header.Get "Authorization" ≠ "")
    (h : ¬ ∃ token, BearerHeader (r.Header.Get "Authorization") token) :
    AuthMiddleware svc next r =
      ⟨[], [], respondWithError StatusUnauthorized
        "Invalid authorization header format (must be Bearer token)"⟩ := by
  unfold AuthMiddleware
  simp only [h0, if_false]
  split
  · rename_i scheme token hsplit
    split
    · rfl
    · rename_i hlow
      exfalso
      apply h
      have hlow2 : ToLower scheme = "bearer" := by simpa using hlow
      exact ⟨token, scheme, Split_bearer_iff.mp ⟨hsplit, hlow2⟩⟩
  · rfl

theorem gate_wellformed {σ : Type} (svc : AuthService σ) (next : Handler) (r : Request)
    (token : String) (h : BearerHeader (r.Header.Get "Authorization") token) :
    AuthMiddleware svc next r =
      match svc.VerifyToken token with
      | .error _ =>
        ⟨[token], [], respondWithError StatusUnauthorized "Invalid or expired token"⟩
      | .ok claims =>
        ⟨[token], [{ r with Ctx := r.Ctx.WithValue UserIDKey (.int64 claims.UserID) }],
          next { r with Ctx := r.Ctx.WithValue UserIDKey (.int64 claims.UserID) }⟩ := by
  have h0 := BearerHeader_ne_empty h
  obtain ⟨scheme, hh⟩ := h
  obtain ⟨hsplit, hlow⟩ := Split_bearer_iff.mpr hh
  unfold AuthMiddleware
  simp only [h0, if_false, hsplit, hlow]
  simp

/-! ## The request gate -/

/-- C1: when the Authorization header is absent (it then reads as the empty
string), is not the scheme word Bearer followed by one token, or carries a token
that VerifyToken rejects, AuthMiddleware answers with status 401 and passes no
request to the downstream handler. -/
theorem AuthMiddleware_rejects {σ : Type} (svc : AuthService σ) (next : Handler) (r : Request)
    (h : r.Header.Get "Authorization" = "" ∨
      (¬ ∃ token, BearerHeader (r.Header.Get "Authorization") token) ∨
      (∃ token err, BearerHeader (r.Header.Get "Authorization") token ∧
        svc.VerifyToken token = .error err)) :
    (AuthMiddleware svc next r).response.status = 401 ∧
      (AuthMiddleware svc next r).served = [] := by
  rcases h with h | h | ⟨token, err, hb, hv⟩
  · rw [gate_missing svc next r h]; exact ⟨rfl, rfl⟩
  · by_cases h0 : r.Header.Get "Authorization" = ""
    · rw [gate_missing svc next r h0]; exact ⟨rfl, rfl⟩
    · rw [gate_malformed svc next r h0 h]; exact ⟨rfl, rfl⟩
  · rw [gate_wellformed svc next r token hb, hv]; exact ⟨rfl, rfl⟩

/-- C1 at three concrete requests: no header, the scheme Basic, and a Bearer
token the service rejects. -/
theorem AuthMiddleware_rejects_witness :
    ((AuthMiddleware stubService GetUserProfile bareRequest).response.status = 401 ∧
      (AuthMiddleware stubService GetUserProfile bareRequest).served = []) ∧
    ((AuthMiddleware stubService GetUserProfile
        (requestWithAuthorization "Bearer bad")).response.status = 401 ∧
      (AuthMiddleware stubService GetUserProfile
        (requestWithAuthorization "Bearer bad")).served = []) :=
  ⟨AuthMiddleware_rejects stubService GetUserProfile bareRequest (Or.inl (by decide)),
   AuthMiddleware_rejects stubService GetUserProfile (requestWithAuthorization "Bearer bad")
    (Or.inr (Or.inr ⟨"bad", Errorf "invalid token",
      ⟨"Bearer", by decide, (toLower_bearer_iff "Bearer").mp (by decide), by decide⟩,
      rfl⟩))⟩

theorem BearerHeader_unique {header t1 t2 : String} (h1 : BearerHeader header t1)
    (h2 : BearerHeader header t2) : t1 = t2 := by
  obtain ⟨s1, hh1⟩ := h1
  obtain ⟨s2, hh2⟩ := h2
  have e1 := (Split_bearer_iff.mpr hh1).1
  have e2 := (Split_bearer_iff.mpr hh2).1
  rw [e1] at e2
  simp only [List.cons.injEq, and_true] at e2
  exact e2.2

/-- C2, the claim as stated fails: the header made of the scheme word and one
space carries no non-empty token, and the gate passes the empty token to
VerifyToken. -/
theorem AuthMiddleware_empty_token_is_verified :
    (AuthMiddleware stubService GetUserProfile (requestWithAuthorization "Bearer ")).verified
        = [""] ∧
      ¬ ∃ token, BearerHeader "Bearer " token ∧ token ≠ "" := by
  refine ⟨by decide, ?_⟩
  rintro ⟨token, hb, hne⟩
  have h0 : BearerHeader "Bearer " "" :=
    ⟨"Bearer", by decide, (toLower_bearer_iff "Bearer").mp (by decide), by decide⟩
  exact hne (BearerHeader_unique hb h0)

/-- C2, amended: AuthMiddleware passes a token to VerifyToken exactly when the
header is the scheme word Bearer (each letter in either case), one space, and
that token, a string without a space that may be empty; it then passes that
token once. Every other header value is answered with 401 without a call of
VerifyToken and without a call of the downstream handler. -/
theorem AuthMiddleware_verifies_iff_bearer {σ : Type} (svc : AuthService σ) (next : Handler)
    (r : Request) :
    (∀ token, (AuthMiddleware svc next r).verified = [token] ↔
        BearerHeader (r.Header.Get "Authorization") token) ∧
      ((¬ ∃ token, BearerHeader (r.Header.Get "Authorization") token) →
        (AuthMiddleware svc next r).verified = [] ∧
        (AuthMiddleware svc next r).served = [] ∧
        (AuthMiddleware svc next r).response.status = 401) := by
  have hwf : ∀ token, BearerHeader (r.Header.Get "Authorization") token →
      (AuthMiddleware svc next r).verified = [token] := by
    intro token hb
    rw [gate_wellformed svc next r token hb]
    cases svc.VerifyToken token <;> rfl
  have hno : (¬ ∃ token, BearerHeader (r.Header.Get "Authorization") token) →
      (AuthMiddleware svc next r).verified = [] ∧
        (AuthMiddleware svc next r).served = [] ∧
        (AuthMiddleware svc next r).response.status = 401 := by
    intro h
    by_cases h0 : r.Header.Get "Authorization" = ""
    · rw [gate_missing svc next r h0]; exact ⟨rfl, rfl, rfl⟩
    · rw [gate_malformed svc next r h0 h]; exact ⟨rfl, rfl, rfl⟩
  refine ⟨fun token => ⟨fun hv => ?_, hwf token⟩, hno⟩
  by_cases hex : ∃ t, BearerHeader (r.Header.Get "Authorization") t
  · obtain ⟨t, ht⟩ := hex
    have := hwf t ht
    rw [this] at hv
    simp only [List.cons.injEq, and_true] at hv
    rw [← hv]; exact ht
  · rw [(hno hex).1] at hv
    simp at hv

/-- C3: when the header is the scheme word Bearer, one space and a token that
VerifyToken accepts with claims c, AuthMiddleware calls the downstream handler
once, with the request whose context maps UserIDKey to c.UserID, and answers
with what that handler writes; with GetUserProfile downstream the answer is 200
with user_id equal to c.UserID. -/
theorem AuthMiddleware_forwards_subject {σ : Type} (svc : AuthService σ) (next : Handler)
    (r : Request) (token : String) (c : Claims)
    (hb : BearerHeader (r.Header.Get "Authorization") token)
    (hv : svc.VerifyToken token = .ok c) :
    ∃ r2 : Request,
      (AuthMiddleware svc next r).served = [r2] ∧
      r2.Ctx.Value UserIDKey = some (.int64 c.UserID) ∧
      r2.Header = r.Header ∧ r2.Body = r.Body ∧
      (AuthMiddleware svc next r).response = next r2 ∧
      (AuthMiddleware svc GetUserProfile r).served = [r2] ∧
      (AuthMiddleware svc GetUserProfile r).response =
        ⟨200, "application/json", [("user_id", .num c.UserID)]⟩ := by
  refine ⟨{ r with Ctx := r.Ctx.WithValue UserIDKey (.int64 c.UserID) }, ?_⟩
  rw [gate_wellformed svc next r token hb, gate_wellformed svc GetUserProfile r token hb, hv]
  refine ⟨rfl, ?_, rfl, rfl, rfl, rfl, ?_⟩
  · simp [Context.Value, Context.WithValue, List.lookup]
  · simp [GetUserProfile, Context.Value, Context.WithValue, List.lookup, respondWithJSON,
      StatusOK]

/-- C3 at the request "Bearer good" against the stub service, whose claims for
that token have subject 7. -/
theorem AuthMiddleware_forwards_subject_witness :
    ∃ r2 : Request,
      (AuthMiddleware stubService GetUserProfile (requestWithAuthorization "Bearer good")).served
        = [r2] ∧
      r2.Ctx.Value UserIDKey = some (.int64 7) ∧
      r2.Header = (requestWithAuthorization "Bearer good").Header ∧
      r2.Body = (requestWithAuthorization "Bearer good").Body ∧
      (AuthMiddleware stubService GetUserProfile (requestWithAuthorization "Bearer good")).response
        = GetUserProfile r2 ∧
      (AuthMiddleware stubService GetUserProfile (requestWithAuthorization "Bearer good")).served
        = [r2] ∧
      (AuthMiddleware stubService GetUserProfile (requestWithAuthorization "Bearer good")).response
        = ⟨200, "application/json", [("user_id", .num 7)]⟩ :=
  AuthMiddleware_forwards_subject stubService GetUserProfile
    (requestWithAuthorization "Bearer good") "good" ⟨7, none, none, none, "authservice"⟩
    ⟨"Bearer", by decide, (toLower_bearer_iff "Bearer").mp (by decide), by decide⟩ rfl

/-- C5, the claim as stated fails: a request without the header and a request
with the scheme Basic are both rejected with 401, with different bodies. -/
theorem AuthMiddleware_rejection_bodies_differ :
    (AuthMiddleware stubService GetUserProfile bareRequest).served = [] ∧
    (AuthMiddleware stubService GetUserProfile (requestWithAuthorization "Basic abc")).served
      = [] ∧
    (AuthMiddleware stubService GetUserProfile bareRequest).response.status = 401 ∧
    (AuthMiddleware stubService GetUserProfile
      (requestWithAuthorization "Basic abc")).response.status = 401 ∧
    (AuthMiddleware stubService GetUserProfile bareRequest).response.body ≠
      (AuthMiddleware stubService GetUserProfile
        (requestWithAuthorization "Basic abc")).response.body := by
  decide

/-- C5, amended: every rejection by AuthMiddleware has status 401 and a body
fixed by the stage that rejected: one message for a missing header, one for a
header that is not Bearer and a token, and one for every token VerifyToken
rejects, whatever the error it returned (bad signature, wrong algorithm or
expiry), so two rejections at the token stage are the same response. -/
theorem AuthMiddleware_rejection_by_stage {σ : Type} (svc : AuthService σ) (next : Handler)
    (r : Request) (hrej : (AuthMiddleware svc next r).served = []) :
    (AuthMiddleware svc next r).response.status = 401 ∧
    (r.Header.Get "Authorization" = "" →
      (AuthMiddleware svc next r).response =
        ⟨401, "application/json", [("error", .str "Authorization header required")]⟩) ∧
    (r.Header.Get "Authorization" ≠ "" →
      (¬ ∃ token, BearerHeader (r.Header.Get "Authorization") token) →
      (AuthMiddleware svc next r).response =
        ⟨401, "application/json",
          [("error", .str "Invalid authorization header format (must be Bearer token)")]⟩) ∧
    ((∃ token, BearerHeader (r.Header.Get "Authorization") token) →
      (AuthMiddleware svc next r).response =
        ⟨401, "application/json", [("error", .str "Invalid or expired token")]⟩) := by
  have hstage : (∃ token, BearerHeader (r.Header.Get "Authorization") token) →
      (AuthMiddleware svc next r).response =
        ⟨401, "application/json", [("error", .str "Invalid or expired token")]⟩ := by
    rintro ⟨token, hb⟩
    rw [gate_wellformed svc next r token hb] at hrej ⊢
    cases hv : svc.VerifyToken token with
    | error e => rfl
    | ok c => rw [hv] at hrej; simp at hrej
  have hmiss : r.Header.Get "Authorization" = "" →
      (AuthMiddleware svc next r).response =
        ⟨401, "application/json", [("error", .str "Authorization header required")]⟩ := by
    intro h0; rw [gate_missing svc next r h0]; rfl
  have hmal : r.Header.Get "Authorization" ≠ "" →
      (¬ ∃ token, BearerHeader (r.Header.Get "Authorization") token) →
      (AuthMiddleware svc next r).response =
        ⟨401, "application/json",
          [("error", .str "Invalid authorization header format (must be Bearer token)")]⟩ := by
    intro h0 h; rw [gate_malformed svc next r h0 h]; rfl
  refine ⟨?_, hmiss, hmal, hstage⟩
  by_cases h0 : r.Header.Get "Authorization" = ""
  · rw [hmiss h0]
  · by_cases h : ∃ token, BearerHeader (r.Header.Get "Authorization") token
    · rw [hstage h]
    · rw [hmal h0 h]

/-- C5 at the request "Bearer bad" against the stub service. -/
theorem AuthMiddleware_rejection_by_stage_witness :
    (AuthMiddleware stubService GetUserProfile
      (requestWithAuthorization "Bearer bad")).response.status = 401 :=
  (AuthMiddleware_rejection_by_stage stubService GetUserProfile
    (requestWithAuthorization "Bearer bad") (by decide)).1

/-! ## Login: unknown email against wrong password -/

theorem Login_unknown_email {σ : Type} (repo : UserRepository σ) (bc : Bcrypt) (jwt : JWT)
    (cfg : Config) (t1 t2 : Int) (email password : String) (s : σ) (err : GoError)
    (hget : repo.GetUserByEmail email s = .error err)
    (hnf : errorsIs err .ErrUserNotFound = true) :
    authService.Login repo bc jwt cfg t1 t2 email password s =
      .error (Errorf "invalid credentials") := by
  unfold authService.Login
  rw [hget]
  simp [hnf]

theorem Login_wrong_password {σ : Type} (repo : UserRepository σ) (bc : Bcrypt) (jwt : JWT)
    (cfg : Config) (t1 t2 : Int) (email password : String) (s : σ) (u : User) (err : GoError)
    (hget : repo.GetUserByEmail email s = .ok u)
    (hcmp : bc.CompareHashAndPassword u.Password password = some err)
    (hmm : errorsIs err .ErrMismatchedHashAndPassword = true) :
    authService.Login repo bc jwt cfg t1 t2 email password s =
      .error (Errorf "invalid credentials") := by
  unfold authService.Login
  rw [hget]
  simp only [hcmp]
  simp [hmm]

theorem LoginHandler_invalid_credentials {σ : Type} (svc : AuthService σ) (r : Request) (s : σ)
    (email password : String) (hbody : r.Body = some ⟨email, password⟩)
    (he : email ≠ "") (hp : password ≠ "")
    (hlogin : (svc.Login email password s).1 = .error (Errorf "invalid credentials")) :
    (AuthHandler.Login svc r s).response =
      ⟨401, "application/json", [("error", .str "Invalid email or password")]⟩ := by
  unfold AuthHandler.Login
  rw [hbody]
  simp only [he, hp, or_self, if_false]
  rcases hres : svc.Login email password s with ⟨res, s2⟩
  rw [hres] at hlogin
  simp only at hlogin
  subst hlogin
  simp [Errorf, respondWithError, respondWithJSON, StatusUnauthorized]

/-- C4, the claim as stated fails: an attempt with an unknown email and the
password "secret1" is answered 401, an attempt with the known email a@x.com and
the empty password, which does not match, is answered 400 by the required-field
check of the handler. -/
theorem LoginHandler_empty_password_differs :
    (∃ err, memRepo.GetUserByEmail "ghost@x.com" storeWithAlice = .error err ∧
      errorsIs err .ErrUserNotFound = true) ∧
    (∃ u err, memRepo.GetUserByEmail "a@x.com" storeWithAlice = .ok u ∧
      toyBcrypt.CompareHashAndPassword u.Password "" = some err ∧
      errorsIs err .ErrMismatchedHashAndPassword = true) ∧
    (AuthHandler.Login toyService (requestWithBody "ghost@x.com" "secret1")
      storeWithAlice).response.status = 401 ∧
    (AuthHandler.Login toyService (requestWithBody "a@x.com" "")
      storeWithAlice).response.status = 400 :=
  ⟨⟨_, rfl, rfl⟩, ⟨_, _, rfl, rfl, rfl⟩, by decide, by decide⟩

/-- C4, amended: for an attempt with an email the store does not know and an
attempt with a known email and a non-matching password, authService.Login
returns the same error, with the text "invalid credentials"; when both requests
pass the required-field check of the Login handler (email and password not
empty), the handler writes the same response for both, 401 with the body
"Invalid email or password". -/
theorem Login_unknown_email_same_as_wrong_password {σ : Type} (repo : UserRepository σ)
    (bc : Bcrypt) (jwt : JWT) (cfg : Config)
    (t1 t2 tv e1 e2 ev : Int) (email1 password1 email2 password2 : String) (s1 s2 : σ)
    (err1 : GoError) (u : User) (err2 : GoError)
    (hunknown : repo.GetUserByEmail email1 s1 = .error err1)
    (hnf : errorsIs err1 .ErrUserNotFound = true)
    (hknown : repo.GetUserByEmail email2 s2 = .ok u)
    (hcmp : bc.CompareHashAndPassword u.Password password2 = some err2)
    (hmm : errorsIs err2 .ErrMismatchedHashAndPassword = true) :
    authService.Login repo bc jwt cfg t1 t2 email1 password1 s1 =
      authService.Login repo bc jwt cfg e1 e2 email2 password2 s2 ∧
    authService.Login repo bc jwt cfg t1 t2 email1 password1 s1 =
      .error ⟨"invalid credentials", []⟩ ∧
    ∀ r1 r2 : Request, r1.Body = some ⟨email1, password1⟩ → r2.Body = some ⟨email2, password2⟩ →
      email1 ≠ "" → password1 ≠ "" → email2 ≠ "" → password2 ≠ "" →
      (AuthHandler.Login (NewAuthService repo bc jwt cfg t1 t2 tv) r1 s1).response =
        (AuthHandler.Login (NewAuthService repo bc jwt cfg e1 e2 ev) r2 s2).response ∧
      (AuthHandler.Login (NewAuthService repo bc jwt cfg t1 t2 tv) r1 s1).response =
        ⟨401, "application/json", [("error", .str "Invalid email or password")]⟩ := by
  have h1 := Login_unknown_email repo bc jwt cfg t1 t2 email1 password1 s1 err1 hunknown hnf
  have h2 := Login_wrong_password repo bc jwt cfg e1 e2 email2 password2 s2 u err2 hknown hcmp hmm
  refine ⟨by rw [h1, h2], h1, ?_⟩
  intro r1 r2 hb1 hb2 hne1 hnp1 hne2 hnp2
  have k1 := LoginHandler_invalid_credentials (NewAuthService repo bc jwt cfg t1 t2 tv) r1 s1
    email1 password1 hb1 hne1 hnp1 (by simp only [NewAuthService]; exact h1)
  have k2 := LoginHandler_invalid_credentials (NewAuthService repo bc jwt cfg e1 e2 ev) r2 s2
    email2 password2 hb2 hne2 hnp2 (by simp only [NewAuthService]; exact h2)
  exact ⟨by rw [k1, k2], k1⟩

/-- C4 at the store holding a@x.com: the unknown email ghost@x.com against the
known email with the password "wrong-pw". -/
theorem Login_unknown_email_same_as_wrong_password_witness :
    authService.Login memRepo toyBcrypt toyJWT toyConfig 5 6 "ghost@x.com" "secret1"
        storeWithAlice =
      authService.Login memRepo toyBcrypt toyJWT toyConfig 7 8 "a@x.com" "wrong-pw"
        storeWithAlice ∧
    authService.Login memRepo toyBcrypt toyJWT toyConfig 5 6 "ghost@x.com" "secret1"
        storeWithAlice = .error ⟨"invalid credentials", []⟩ ∧
    ∀ r1 r2 : Request, r1.Body = some ⟨"ghost@x.com", "secret1"⟩ →
      r2.Body = some ⟨"a@x.com", "wrong-pw"⟩ →
      "ghost@x.com" ≠ "" → "secret1" ≠ "" → "a@x.com" ≠ "" → "wrong-pw" ≠ "" →
      (AuthHandler.Login (NewAuthService memRepo toyBcrypt toyJWT toyConfig 5 6 9) r1
          storeWithAlice).response =
        (AuthHandler.Login (NewAuthService memRepo toyBcrypt toyJWT toyConfig 7 8 9) r2
          storeWithAlice).response ∧
      (AuthHandler.Login (NewAuthService memRepo toyBcrypt toyJWT toyConfig 5 6 9) r1
          storeWithAlice).response =
        ⟨401, "application/json", [("error", .str "Invalid email or password")]⟩ :=
  Login_unknown_email_same_as_wrong_password memRepo toyBcrypt toyJWT toyConfig 5 6 9 7 8 9
    "ghost@x.com" "secret1" "a@x.com" "wrong-pw" storeWithAlice storeWithAlice
    Sentinel.ErrUserNotFound.err ⟨1, "a@x.com", "$toy$1terces", 0, 0⟩
    Sentinel.ErrMismatchedHashAndPassword.err rfl rfl rfl rfl rfl

/-! ## Registration -/

/-- The validation of the Register handler as the code performs it: a request
whose body does not decode, whose email or password is empty, or whose password
is shorter than 6 bytes is answered 400, the auth service is not called and the
world state is unchanged. -/
theorem RegisterHandler_validation {σ : Type} (svc : AuthService σ) (r : Request) (s : σ)
    (h : r.Body = none ∨ ∃ email password, r.Body = some ⟨email, password⟩ ∧
      (email = "" ∨ password = "" ∨ len password < 6)) :
    (AuthHandler.Register svc r s).response.status = 400 ∧
      (AuthHandler.Register svc r s).calls = [] ∧
      (AuthHandler.Register svc r s).state = s := by
  unfold AuthHandler.Register
  rcases h with h | ⟨email, password, hb, hv⟩
  · rw [h]; exact ⟨rfl, rfl, rfl⟩
  · rw [hb]
    simp only
    by_cases h1 : email = "" ∨ password = ""
    · rw [if_pos h1]; exact ⟨rfl, rfl, rfl⟩
    · rw [if_neg h1]
      have h2 : len password < 6 := by
        rcases hv with hv | hv | hv
        · exact absurd (Or.inl hv) h1
        · exact absurd (Or.inr hv) h1
        · exact hv
      rw [if_pos h2]; exact ⟨rfl, rfl, rfl⟩

/-- C6, the code at the failing input: the password "héllo" has 5 characters and
6 bytes; the Register handler lets it pass, calls the auth service with it and
answers 201. -/
theorem RegisterHandler_accepts_five_characters :
    "héllo".length = 5 ∧ len "héllo" = 6 ∧
    (AuthHandler.Register toyService (requestWithBody "a@x.com" "héllo") []).calls =
      [("a@x.com", "héllo")] ∧
    (AuthHandler.Register toyService (requestWithBody "a@x.com" "héllo") []).response.status
      = 201 ∧
    (AuthHandler.Register toyService (requestWithBody "a@x.com" "héllo") []).state ≠ [] := by
  decide

theorem Register_success_run {σ : Type} (repo : UserRepository σ) (bc : Bcrypt)
    (email password : String) (s s2 : σ) (h : String) (id : Int)
    (hhash : bc.GenerateFromPassword password = .ok h)
    (hcreate : repo.CreateUser ⟨0, email, h, 0, 0⟩ s = (.ok id, s2)) :
    authService.Register repo bc email password s =
      ⟨.ok ⟨id, email, "", 0, 0⟩, s2, [⟨0, email, h, 0, 0⟩]⟩ := by
  unfold authService.Register
  rw [hhash]
  simp only
  rw [hcreate]

/-- C7: when hashing gives the artifact h and CreateUser succeeds with an id,
authService.Register returns the identity with that id, the email given and an
empty Password field; CreateUser was called once, with the email given and h in
the Password field, so with the plaintext only if the hasher returned it. -/
theorem Register_returns_identity {σ : Type} (repo : UserRepository σ) (bc : Bcrypt)
    (email password : String) (s s2 : σ) (h : String) (id : Int)
    (hhash : bc.GenerateFromPassword password = .ok h)
    (hcreate : repo.CreateUser ⟨0, email, h, 0, 0⟩ s = (.ok id, s2)) :
    (authService.Register repo bc email password s).result = .ok ⟨id, email, "", 0, 0⟩ ∧
    (authService.Register repo bc email password s).created = [⟨0, email, h, 0, 0⟩] ∧
    (authService.Register repo bc email password s).state = s2 ∧
    (h ≠ password →
      ∀ u ∈ (authService.Register repo bc email password s).created, u.Password ≠ password) := by
  rw [Register_success_run repo bc email password s s2 h id hhash hcreate]
  refine ⟨rfl, rfl, rfl, ?_⟩
  intro hne u hu
  simp only [List.mem_singleton] at hu
  rw [hu]
  exact hne

/-- C7 at the empty in-memory store with the stand-in hasher. -/
theorem Register_returns_identity_witness :
    (authService.Register memRepo toyBcrypt "a@x.com" "secret1" []).result =
      .ok ⟨1, "a@x.com", "", 0, 0⟩ ∧
    (authService.Register memRepo toyBcrypt "a@x.com" "secret1" []).created =
      [⟨0, "a@x.com", "$toy$1terces", 0, 0⟩] ∧
    (authService.Register memRepo toyBcrypt "a@x.com" "secret1" []).state = storeWithAlice ∧
    ("$toy$1terces" ≠ "secret1" →
      ∀ u ∈ (authService.Register memRepo toyBcrypt "a@x.com" "secret1" []).created,
        u.Password ≠ "secret1") :=
  Register_returns_identity memRepo toyBcrypt "a@x.com" "secret1" [] storeWithAlice
    "$toy$1terces" 1 rfl rfl

theorem RegisterHandler_on_error {σ : Type} (svc : AuthService σ) (r : Request) (s s2 : σ)
    (email password : String) (err : GoError) (hbody : r.Body = some ⟨email, password⟩)
    (he : email ≠ "") (hp : password ≠ "") (hlen : 6 ≤ len password)
    (hreg : svc.Register email password s = (.error err, s2)) :
    (AuthHandler.Register svc r s).response =
      if errorsIs err .ErrEmailExists = true then
        ⟨409, "application/json", [("error", .str "Email already exists")]⟩
      else ⟨500, "application/json", [("error", .str "Failed to register user")]⟩ := by
  have hl : ¬ len password < 6 := by omega
  unfold AuthHandler.Register
  rw [hbody]
  simp only [he, hp, or_self, if_false, hl, hreg]
  split <;> rfl

theorem Register_on_create_error {σ : Type} (repo : UserRepository σ) (bc : Bcrypt)
    (email password : String) (s s2 : σ) (h : String) (err : GoError)
    (hhash : bc.GenerateFromPassword password = .ok h)
    (hcreate : repo.CreateUser ⟨0, email, h, 0, 0⟩ s = (.error err, s2)) :
    (authService.Register repo bc email password s).result =
      (if errorsIs err .ErrEmailExists = true then .error err
        else .error (Wrapf "failed to create user: " err)) ∧
    (authService.Register repo bc email password s).state = s2 := by
  unfold authService.Register
  rw [hhash]
  simp only
  rw [hcreate]
  simp only
  split <;> exact ⟨rfl, rfl⟩

theorem Register_on_hash_error {σ : Type} (repo : UserRepository σ) (bc : Bcrypt)
    (email password : String) (s : σ) (err : GoError)
    (hhash : bc.GenerateFromPassword password = .error err) :
    (authService.Register repo bc email password s).result =
      .error (Wrapf "failed to hash password: " err) ∧
    (authService.Register repo bc email password s).state = s := by
  unfold authService.Register
  rw [hhash]
  exact ⟨rfl, rfl⟩

/-- C8: for a request that passes validation (email and password not empty,
password of at least 6 bytes), the Register handler over the auth service
answers 409 "Email already exists" when CreateUser fails with the
duplicate-email error, and 500 with the fixed body "Failed to register user"
when CreateUser or hashing fails with an error that is not the duplicate-email
error, whatever that error is. -/
theorem RegisterHandler_failure_responses {σ : Type} (repo : UserRepository σ) (bc : Bcrypt)
    (jwt : JWT) (cfg : Config) (t1 t2 tv : Int) (r : Request) (s : σ)
    (email password : String) (hbody : r.Body = some ⟨email, password⟩)
    (he : email ≠ "") (hp : password ≠ "") (hlen : 6 ≤ len password) :
    (∀ h err s2, bc.GenerateFromPassword password = .ok h →
      repo.CreateUser ⟨0, email, h, 0, 0⟩ s = (.error err, s2) →
      errorsIs err .ErrEmailExists = true →
      (AuthHandler.Register (NewAuthService repo bc jwt cfg t1 t2 tv) r s).response =
        ⟨409, "application/json", [("error", .str "Email already exists")]⟩) ∧
    (∀ h err s2, bc.GenerateFromPassword password = .ok h →
      repo.CreateUser ⟨0, email, h, 0, 0⟩ s = (.error err, s2) →
      errorsIs err .ErrEmailExists = false →
      (AuthHandler.Register (NewAuthService repo bc jwt cfg t1 t2 tv) r s).response =
        ⟨500, "application/json", [("error", .str "Failed to register user")]⟩) ∧
    (∀ err, bc.GenerateFromPassword password = .error err →
      errorsIs err .ErrEmailExists = false →
      (AuthHandler.Register (NewAuthService repo bc jwt cfg t1 t2 tv) r s).response =
        ⟨500, "application/json", [("error", .str "Failed to register user")]⟩) := by
  refine ⟨?_, ?_, ?_⟩
  · intro h err s2 hhash hcreate his
    obtain ⟨h1, h2⟩ := Register_on_create_error repo bc email password s s2 h err hhash hcreate
    rw [if_pos his] at h1
    have hreg : (NewAuthService repo bc jwt cfg t1 t2 tv).Register email password s =
        (.error err, s2) := by
      simp only [NewAuthService, h1, h2]
    rw [RegisterHandler_on_error _ r s s2 email password err hbody he hp hlen hreg, if_pos his]
  · intro h err s2 hhash hcreate his
    obtain ⟨h1, h2⟩ := Register_on_create_error repo bc email password s s2 h err hhash hcreate
    have hn : ¬ errorsIs err .ErrEmailExists = true := by simp [his]
    rw [if_neg hn] at h1
    have hreg : (NewAuthService repo bc jwt cfg t1 t2 tv).Register email password s =
        (.error (Wrapf "failed to create user: " err), s2) := by
      simp only [NewAuthService, h1, h2]
    have hw : ¬ errorsIs (Wrapf "failed to create user: " err) .ErrEmailExists = true := hn
    rw [RegisterHandler_on_error _ r s s2 email password _ hbody he hp hlen hreg, if_neg hw]
  · intro err hhash his
    obtain ⟨h1, h2⟩ := Register_on_hash_error repo bc email password s err hhash
    have hn : ¬ errorsIs err .ErrEmailExists = true := by simp [his]
    have hreg : (NewAuthService repo bc jwt cfg t1 t2 tv).Register email password s =
        (.error (Wrapf "failed to hash password: " err), s) := by
      simp only [NewAuthService, h1, h2]
    have hw : ¬ errorsIs (Wrapf "failed to hash password: " err) .ErrEmailExists = true := hn
    rw [RegisterHandler_on_error _ r s s email password _ hbody he hp hlen hreg, if_neg hw]

/-- C8 at the store that already holds a@x.com: a second registration of that
email is answered 409. -/
theorem RegisterHandler_failure_responses_witness :
    (AuthHandler.Register toyService (requestWithBody "a@x.com" "secret2")
      storeWithAlice).response =
        ⟨409, "application/json", [("error", .str "Email already exists")]⟩ :=
  (RegisterHandler_failure_responses memRepo toyBcrypt toyJWT toyConfig 1700000000123456789
    1700000000123456999 1700000001000000000 (requestWithBody "a@x.com" "secret2") storeWithAlice
    "a@x.com" "secret2" rfl (by decide) (by decide) (by decide)).1
    "$toy$2terces" Sentinel.ErrEmailExists.err storeWithAlice rfl rfl rfl

/-! ## Tokens -/

theorem Login_success {σ : Type} (repo : UserRepository σ) (bc : Bcrypt) (jwt : JWT)
    (cfg : Config) (t1 t2 : Int) (email password : String) (s : σ) (u : User)
    (hget : repo.GetUserByEmail email s = .ok u)
    (hcmp : bc.CompareHashAndPassword u.Password password = none) :
    authService.Login repo bc jwt cfg t1 t2 email password s =
      .ok (jwt.SigningString "HS256" (loginClaims cfg t1 t2 u) ++ "." ++
        jwt.hmac "HS256" cfg.JWTSecret (jwt.SigningString "HS256" (loginClaims cfg t1 t2 u))) := by
  unfold authService.Login
  rw [hget]
  simp only [hcmp]
  rfl

theorem VerifyToken_accepts (jwt : JWT) (cfg : Config) (now : Int) (tokenString : String)
    (seg : Segments) (alg a : String)
    (hdec : jwt.decode tokenString = some seg) (halg : seg.alg = some alg)
    (hm : GetSigningMethod alg = some (.HMAC a))
    (hsig : jwt.hmac a cfg.JWTSecret seg.text = seg.sig)
    (hval : Validate now seg.claims = none) :
    authService.VerifyToken jwt cfg now tokenString = .ok seg.claims := by
  unfold authService.VerifyToken ParseWithClaims
  rw [hdec]
  simp only [halg, hm, verifyKeyFunc, SigningMethod.Verify, hsig, decide_True, if_true, hval]
  rfl

theorem Validate_of_live (now exp : Int) (c : Claims) (hexp : c.ExpiresAt = some exp)
    (hnbf : c.NotBefore = none) (hlive : now < exp) : Validate now c = none := by
  unfold Validate
  rw [hexp, hnbf]
  simp [hlive]

/-- C9, the claim as stated fails: the pair of a@x.com and a password of 73 bytes
passes the validation of the Register handler, the hasher refuses the password,
Register fails and the handler answers 500; no user is stored, and Login with the
same credentials fails. -/
theorem Register_refuses_long_password :
    ("a@x.com" ≠ "" ∧ longPassword ≠ "" ∧ 6 ≤ len longPassword ∧ len longPassword = 73) ∧
    (authService.Register memRepo toyBcryptGuarded "a@x.com" longPassword []).result =
      .error ⟨"failed to hash password: bcrypt: password length exceeds 72 bytes", []⟩ ∧
    (authService.Register memRepo toyBcryptGuarded "a@x.com" longPassword []).state = [] ∧
    (AuthHandler.Register
      (NewAuthService memRepo toyBcryptGuarded toyJWT toyConfig 1700000000123456789
        1700000000123456999 1700000001000000000)
      (requestWithBody "a@x.com" longPassword) []).calls = [("a@x.com", longPassword)] ∧
    (AuthHandler.Register
      (NewAuthService memRepo toyBcryptGuarded toyJWT toyConfig 1700000000123456789
        1700000000123456999 1700000001000000000)
      (requestWithBody "a@x.com" longPassword) []).response =
        ⟨500, "application/json", [("error", .str "Failed to register user")]⟩ ∧
    authService.Login memRepo toyBcryptGuarded toyJWT toyConfig 1700000000123456789
      1700000000123456999 "a@x.com" longPassword
      (authService.Register memRepo toyBcryptGuarded "a@x.com" longPassword []).state =
        .error ⟨"invalid credentials", []⟩ := by
  decide

/-- Register succeeds exactly when hashing succeeds and CreateUser succeeds; the
identity returned then carries the id CreateUser gave. -/
theorem Register_ok_iff {σ : Type} (repo : UserRepository σ) (bc : Bcrypt)
    (email password : String) (s : σ) (user : User) :
    (authService.Register repo bc email password s).result = .ok user ↔
      ∃ h id s2, bc.GenerateFromPassword password = .ok h ∧
        repo.CreateUser ⟨0, email, h, 0, 0⟩ s = (.ok id, s2) ∧
        user = ⟨id, email, "", 0, 0⟩ := by
  constructor
  · intro hres
    unfold authService.Register at hres
    cases hh : bc.GenerateFromPassword password with
    | error e => rw [hh] at hres; simp at hres
    | ok h =>
      rw [hh] at hres
      simp only at hres
      rcases hc : repo.CreateUser ⟨0, email, h, 0, 0⟩ s with ⟨res, s2⟩
      rw [hc] at hres
      cases res with
      | error e =>
        simp only at hres
        split at hres <;> simp at hres
      | ok id =>
        simp only at hres
        exact ⟨h, id, s2, rfl, hc, (Except.ok.inj hres).symm⟩
  · rintro ⟨h, id, s2, hh, hc, rfl⟩
    rw [Register_success_run repo bc email password s s2 h id hh hc]

/-- The length guard of the hasher lets every password of at most 72 bytes
through to the hashing proper. -/
theorem GenerateFromPassword_of_short (hash : String → Except GoError String)
    (password : String) (hlen : len password ≤ 72) :
    GenerateFromPassword hash password = hash password := by
  unfold GenerateFromPassword
  rw [if_neg (by omega)]

/-- C9, amended: when Register succeeds for an email and password (hashing gives
h, which bcrypt refuses for a password of more than 72 bytes, and CreateUser
gives id), the store then returns under that email a user with that id and
hash, the hasher accepts h for the password, and the codec decodes the token
Login signs into its own parts, then Login with the same credentials returns a
token, and VerifyToken with the same secret at a clock reading before the expiry
accepts it with claims whose UserID is id. -/
theorem register_login_verify {σ : Type} (repo : UserRepository σ) (bc : Bcrypt) (jwt : JWT)
    (cfg : Config) (t1 t2 tv : Int) (email password : String) (s s2 : σ)
    (h : String) (id : Int) (u : User)
    (hhash : bc.GenerateFromPassword password = .ok h)
    (hcreate : repo.CreateUser ⟨0, email, h, 0, 0⟩ s = (.ok id, s2))
    (hfind : repo.GetUserByEmail email s2 = .ok u) (hid : u.ID = id) (hpw : u.Password = h)
    (hcmp : bc.CompareHashAndPassword h password = none)
    (hdec : jwt.decode (jwt.SigningString "HS256" (loginClaims cfg t1 t2 u) ++ "." ++
        jwt.hmac "HS256" cfg.JWTSecret (jwt.SigningString "HS256" (loginClaims cfg t1 t2 u))) =
      some ⟨jwt.SigningString "HS256" (loginClaims cfg t1 t2 u), some "HS256",
        loginClaims cfg t1 t2 u,
        jwt.hmac "HS256" cfg.JWTSecret (jwt.SigningString "HS256" (loginClaims cfg t1 t2 u))⟩)
    (hlive : tv < NewNumericDate (t1 + cfg.TokenTTL)) :
    (authService.Register repo bc email password s).result = .ok ⟨id, email, "", 0, 0⟩ ∧
    ∃ token claims,
      authService.Login repo bc jwt cfg t1 t2 email password
        (authService.Register repo bc email password s).state = .ok token ∧
      authService.VerifyToken jwt cfg tv token = .ok claims ∧
      claims.UserID = id := by
  have hrun := Register_success_run repo bc email password s s2 h id hhash hcreate
  have hres : (authService.Register repo bc email password s).result =
      .ok ⟨id, email, "", 0, 0⟩ := by rw [hrun]
  have hst : (authService.Register repo bc email password s).state = s2 := by rw [hrun]
  refine ⟨hres, jwt.SigningString "HS256" (loginClaims cfg t1 t2 u) ++ "." ++
    jwt.hmac "HS256" cfg.JWTSecret (jwt.SigningString "HS256" (loginClaims cfg t1 t2 u)),
    loginClaims cfg t1 t2 u, ?_, ?_, hid⟩
  · rw [hst]
    exact Login_success repo bc jwt cfg t1 t2 email password s2 u hfind (by rw [hpw]; exact hcmp)
  · exact VerifyToken_accepts jwt cfg tv _ _ "HS256" "HS256" hdec rfl rfl rfl
      (Validate_of_live tv _ _ rfl rfl hlive)

/-- C9 at the empty in-memory store with the stand-in hasher and codec:
a@x.com registers with "secret1", logs in and the token verifies one second
later for subject 1. -/
theorem register_login_verify_witness :
    (authService.Register memRepo toyBcrypt "a@x.com" "secret1" []).result =
      .ok ⟨1, "a@x.com", "", 0, 0⟩ ∧
    ∃ token claims,
      authService.Login memRepo toyBcrypt toyJWT toyConfig 1700000000123456789
        1700000000123456999 "a@x.com" "secret1"
        (authService.Register memRepo toyBcrypt "a@x.com" "secret1" []).state = .ok token ∧
      authService.VerifyToken toyJWT toyConfig 1700000001000000000 token = .ok claims ∧
      claims.UserID = 1 :=
  register_login_verify memRepo toyBcrypt toyJWT toyConfig 1700000000123456789
    1700000000123456999 1700000001000000000 "a@x.com" "secret1" [] storeWithAlice
    "$toy$1terces" 1 ⟨1, "a@x.com", "$toy$1terces", 0, 0⟩ rfl rfl rfl rfl rfl rfl
    (by decide) (by decide)

/-- C10, the claim as stated fails: a token whose header declares HS384, signed
with the secret under that hash and not expired, is accepted by VerifyToken. -/
theorem VerifyToken_accepts_HS384 :
    (Option.map Segments.alg (toyJWT.decode
      "HS384.1,1700003600000000000,1700000000000000000,,authservice.954364021")) =
        some (some "HS384") ∧
    authService.VerifyToken toyJWT toyConfig 1700000001000000000
      "HS384.1,1700003600000000000,1700000000000000000,,authservice.954364021" =
        .ok ⟨1, some 1700003600000000000, some 1700000000000000000, none, "authservice"⟩ := by
  decide

/-- C10, amended: VerifyToken fails for every token whose header declares an
algorithm outside the HMAC family (HS256, HS384, HS512), whatever its signature
and claims are; a token that declares no algorithm or does not decode fails as
well. -/
theorem VerifyToken_rejects_non_HMAC (jwt : JWT) (cfg : Config) (now : Int)
    (tokenString : String)
    (h : ∀ seg, jwt.decode tokenString = some seg →
      seg.alg ≠ some "HS256" ∧ seg.alg ≠ some "HS384" ∧ seg.alg ≠ some "HS512") :
    ∃ err, authService.VerifyToken jwt cfg now tokenString = .error err := by
  have hparse : ∃ err, ParseWithClaims jwt now tokenString (verifyKeyFunc cfg) = .error err := by
    unfold ParseWithClaims
    cases hdec : jwt.decode tokenString with
    | none => exact ⟨_, rfl⟩
    | some seg =>
      obtain ⟨h1, h2, h3⟩ := h seg hdec
      simp only
      cases halg : seg.alg with
      | none => exact ⟨_, rfl⟩
      | some alg =>
        rw [halg] at h1 h2 h3
        simp only
        cases hm : GetSigningMethod alg with
        | none => exact ⟨_, rfl⟩
        | some method =>
          simp only
          have hk : ∃ e, verifyKeyFunc cfg method (some alg) = .error e := by
            cases method with
            | HMAC a =>
              exfalso
              unfold GetSigningMethod at hm
              split at hm <;> simp_all
            | _ => exact ⟨_, rfl⟩
          obtain ⟨e, he⟩ := hk
          rw [he]
          exact ⟨_, rfl⟩
  obtain ⟨err, he⟩ := hparse
  unfold authService.VerifyToken
  rw [he]
  simp only
  split
  · exact ⟨_, rfl⟩
  · exact ⟨_, rfl⟩

/-- C10 at two tokens of the stand-in codec: one declaring "none", one
declaring RS256. -/
theorem VerifyToken_rejects_non_HMAC_witness :
    (∃ err, authService.VerifyToken toyJWT toyConfig 1700000001000000000
      "none.1,1700003600000000000,1700000000000000000,,authservice." = .error err) ∧
    (∃ err, authService.VerifyToken toyJWT toyConfig 1700000001000000000
      "RS256.1,1700003600000000000,1700000000000000000,,authservice.954364021" = .error err) :=
  ⟨VerifyToken_rejects_non_HMAC toyJWT toyConfig 1700000001000000000
    "none.1,1700003600000000000,1700000000000000000,,authservice." (by decide),
   VerifyToken_rejects_non_HMAC toyJWT toyConfig 1700000001000000000
    "RS256.1,1700003600000000000,1700000000000000000,,authservice.954364021" (by decide)⟩

/-! ## Expiry -/

theorem Validate_expired (now exp : Int) (c : Claims) (hexp : c.ExpiresAt = some exp)
    (hpast : exp ≤ now) :
    ∃ err, Validate now c = some err ∧ errorsIs err .ErrTokenExpired = true := by
  have hnot : ¬ now < exp := by omega
  unfold Validate
  rw [hexp]
  simp only [hnot, not_false_eq_true, decide_True]
  split
  · rename_i h1 h2; simp at h1
  · exact ⟨_, rfl, by decide⟩
  · rename_i h1 h2; simp at h1
  · exact ⟨_, rfl, by decide⟩

theorem VerifyToken_expired (jwt : JWT) (cfg : Config) (now : Int) (tokenString : String)
    (seg : Segments) (alg a : String) (exp : Int)
    (hdec : jwt.decode tokenString = some seg) (halg : seg.alg = some alg)
    (hm : GetSigningMethod alg = some (.HMAC a))
    (hsig : jwt.hmac a cfg.JWTSecret seg.text = seg.sig)
    (hexp : seg.claims.ExpiresAt = some exp) (hpast : exp ≤ now) :
    authService.VerifyToken jwt cfg now tokenString = .error ⟨"token has expired", []⟩ := by
  obtain ⟨err, hval, his⟩ := Validate_expired now exp seg.claims hexp hpast
  have hchain : errorsIs (newError "" .ErrTokenInvalidClaims err) .ErrTokenExpired = true := by
    unfold errorsIs at his ⊢
    simp only [decide_eq_true_eq] at his ⊢
    simp [newError, his]
  unfold authService.VerifyToken ParseWithClaims
  rw [hdec]
  simp only [halg, hm, verifyKeyFunc, SigningMethod.Verify, hsig, decide_True, if_true, hval,
    hchain]
  rfl

theorem NewNumericDate_le (t : Int) : NewNumericDate t ≤ t := by
  unfold NewNumericDate
  have : 0 ≤ t % 1000000000 := Int.emod_nonneg t (by decide)
  omega

theorem expired_ne_wrapped (e : GoError) :
    (⟨"token has expired", []⟩ : GoError) ≠ Wrapf "invalid token: " e := by
  intro h
  have hm := congrArg GoError.msg h
  simp only [Wrapf] at hm
  have hd := congrArg String.data hm
  rw [String.data_append] at hd
  have h0 := congrArg List.head? hd
  have h1 : ("invalid token: ".data ++ e.msg.data).head? = some 'i' := rfl
  rw [h1] at h0
  revert h0
  decide

/-- C11: a token that decodes, is signed with the secret under the HMAC method
its header names, and whose expiry is not after the clock reading of
VerifyToken is rejected with the error "token has expired", which is neither of
the two invalid-token errors; so is the token Login issues under a TTL of 0,
verified at any reading not before the first clock reading of Login. -/
theorem VerifyToken_classifies_expiry (jwt : JWT) (cfg : Config) (now : Int)
    (tokenString : String) (seg : Segments) (alg a : String) (exp : Int)
    (hdec : jwt.decode tokenString = some seg) (halg : seg.alg = some alg)
    (hm : GetSigningMethod alg = some (.HMAC a))
    (hsig : jwt.hmac a cfg.JWTSecret seg.text = seg.sig)
    (hexp : seg.claims.ExpiresAt = some exp) (hpast : exp ≤ now) :
    authService.VerifyToken jwt cfg now tokenString = .error ⟨"token has expired", []⟩ ∧
    (∀ e, authService.VerifyToken jwt cfg now tokenString ≠ .error (Wrapf "invalid token: " e)) ∧
    authService.VerifyToken jwt cfg now tokenString ≠ .error (Errorf "invalid token") ∧
    (∀ (σ : Type) (repo : UserRepository σ) (bc : Bcrypt) (t1 t2 tv : Int)
      (email password : String) (s : σ) (u : User),
      cfg.TokenTTL = 0 →
      repo.GetUserByEmail email s = .ok u →
      bc.CompareHashAndPassword u.Password password = none →
      jwt.decode (jwt.SigningString "HS256" (loginClaims cfg t1 t2 u) ++ "." ++
          jwt.hmac "HS256" cfg.JWTSecret (jwt.SigningString "HS256" (loginClaims cfg t1 t2 u))) =
        some ⟨jwt.SigningString "HS256" (loginClaims cfg t1 t2 u), some "HS256",
          loginClaims cfg t1 t2 u,
          jwt.hmac "HS256" cfg.JWTSecret (jwt.SigningString "HS256" (loginClaims cfg t1 t2 u))⟩ →
      t1 ≤ tv →
      ∃ token, authService.Login repo bc jwt cfg t1 t2 email password s = .ok token ∧
        authService.VerifyToken jwt cfg tv token = .error ⟨"token has expired", []⟩) := by
  have hmain := VerifyToken_expired jwt cfg now tokenString seg alg a exp hdec halg hm hsig
    hexp hpast
  refine ⟨hmain, ?_, ?_, ?_⟩
  · intro e h
    rw [hmain] at h
    exact expired_ne_wrapped e (Except.error.inj h)
  · intro h
    rw [hmain] at h
    have := congrArg GoError.msg (Except.error.inj h)
    revert this
    decide
  · intro σ repo bc t1 t2 tv email password s u httl hget hcmp hdec2 hle
    refine ⟨_, Login_success repo bc jwt cfg t1 t2 email password s u hget hcmp, ?_⟩
    apply VerifyToken_expired jwt cfg tv _ _ "HS256" "HS256" (NewNumericDate (t1 + cfg.TokenTTL))
      hdec2 rfl rfl rfl rfl
    rw [httl, Int.add_zero]
    exact le_trans (NewNumericDate_le t1) hle

/-- C11 at two tokens of the stand-in codec: the token Login issues for a@x.com
under a TTL of one hour, verified at the very instant of its expiry, and the
token Login issues under a TTL of 0, verified at the first clock reading of
that Login. -/
theorem VerifyToken_classifies_expiry_witness :
    authService.VerifyToken toyJWT toyConfig 1700003600000000000
      "HS256.1,1700003600000000000,1700000000000000000,,authservice.507405379" =
        .error ⟨"token has expired", []⟩ ∧
    ∃ token, authService.Login memRepo toyBcrypt toyJWT toyConfigZeroTTL 1700000000123456789
        1700000000123456999 "a@x.com" "secret1" storeWithAlice = .ok token ∧
      authService.VerifyToken toyJWT toyConfigZeroTTL 1700000000123456789 token =
        .error ⟨"token has expired", []⟩ :=
  ⟨(VerifyToken_classifies_expiry toyJWT toyConfig 1700003600000000000
    "HS256.1,1700003600000000000,1700000000000000000,,authservice.507405379"
    ⟨"HS256.1,1700003600000000000,1700000000000000000,,authservice", some "HS256",
      ⟨1, some 1700003600000000000, some 1700000000000000000, none, "authservice"⟩, "507405379"⟩
    "HS256" "HS256" 1700003600000000000 (by decide) rfl rfl (by decide) rfl (by decide)).1,
   (VerifyToken_classifies_expiry toyJWT toyConfigZeroTTL 1700000000123456789
    "HS256.1,1700000000000000000,1700000000000000000,,authservice.320964402"
    ⟨"HS256.1,1700000000000000000,1700000000000000000,,authservice", some "HS256",
      ⟨1, some 1700000000000000000, some 1700000000000000000, none, "authservice"⟩, "320964402"⟩
    "HS256" "HS256" 1700000000000000000 (by decide) rfl rfl (by decide) rfl
    (by decide)).2.2.2 (List User) memRepo toyBcrypt 1700000000123456789 1700000000123456999
      1700000000123456789 "a@x.com" "secret1" storeWithAlice
      ⟨1, "a@x.com", "$toy$1terces", 0, 0⟩ rfl rfl rfl (by decide) (by decide)⟩

/-- C12, the claim as stated fails: under a TTL of 0 Login succeeds and the
claims of the token it issues have expires_at equal to issued_at. -/
theorem Login_zero_ttl_expiry_equals_issue :
    authService.Login memRepo toyBcrypt toyJWT toyConfigZeroTTL 1700000000123456789
      1700000000123456999 "a@x.com" "secret1" storeWithAlice =
        .ok "HS256.1,1700000000000000000,1700000000000000000,,authservice.320964402" ∧
    Option.map Segments.claims (toyJWT.decode
      "HS256.1,1700000000000000000,1700000000000000000,,authservice.320964402") =
        some ⟨1, some 1700000000000000000, some 1700000000000000000, none, "authservice"⟩ ∧
    (loginClaims toyConfigZeroTTL 1700000000123456789 1700000000123456999
      ⟨1, "a@x.com", "$toy$1terces", 0, 0⟩).ExpiresAt = some 1700000000000000000 ∧
    (loginClaims toyConfigZeroTTL 1700000000123456789 1700000000123456999
      ⟨1, "a@x.com", "$toy$1terces", 0, 0⟩).IssuedAt = some 1700000000000000000 := by
  decide

/-- C12, amended: for every configured TTL and every pair of clock readings of
a successful Login, the token issued carries claims whose subject is the id of
the user looked up, whose issuer is "authservice", whose expires_at is the first
reading plus the TTL and whose issued_at is the second reading, both cut to
whole seconds; expires_at > issued_at holds whenever the first reading plus the
TTL is at least one second after the second reading. -/
theorem Login_claims {σ : Type} (repo : UserRepository σ) (bc : Bcrypt) (jwt : JWT)
    (cfg : Config) (t1 t2 : Int) (email password : String) (s : σ) (u : User)
    (hget : repo.GetUserByEmail email s = .ok u)
    (hcmp : bc.CompareHashAndPassword u.Password password = none) :
    authService.Login repo bc jwt cfg t1 t2 email password s =
      .ok (jwt.SigningString "HS256" (loginClaims cfg t1 t2 u) ++ "." ++
        jwt.hmac "HS256" cfg.JWTSecret (jwt.SigningString "HS256" (loginClaims cfg t1 t2 u))) ∧
    (loginClaims cfg t1 t2 u).UserID = u.ID ∧
    (loginClaims cfg t1 t2 u).Issuer = "authservice" ∧
    (loginClaims cfg t1 t2 u).ExpiresAt = some (NewNumericDate (t1 + cfg.TokenTTL)) ∧
    (loginClaims cfg t1 t2 u).IssuedAt = some (NewNumericDate t2) ∧
    (t2 + 1000000000 ≤ t1 + cfg.TokenTTL →
      NewNumericDate (t1 + cfg.TokenTTL) > NewNumericDate t2) := by
  refine ⟨Login_success repo bc jwt cfg t1 t2 email password s u hget hcmp, rfl, rfl, rfl, rfl,
    ?_⟩
  intro h
  unfold NewNumericDate
  have h1 := Int.emod_nonneg t2 (show (1000000000 : Int) ≠ 0 by decide)
  have h2 := Int.emod_lt_of_pos t2 (show (0 : Int) < 1000000000 by decide)
  have h3 := Int.emod_nonneg (t1 + cfg.TokenTTL) (show (1000000000 : Int) ≠ 0 by decide)
  have h4 := Int.emod_lt_of_pos (t1 + cfg.TokenTTL) (show (0 : Int) < 1000000000 by decide)
  have d1 := Int.emod_add_ediv t2 1000000000
  have d2 := Int.emod_add_ediv (t1 + cfg.TokenTTL) 1000000000
  omega

/-- C12 at the store holding a@x.com under the TTL of one hour. -/
theorem Login_claims_witness :
    authService.Login memRepo toyBcrypt toyJWT toyConfig 1700000000123456789
      1700000000123456999 "a@x.com" "secret1" storeWithAlice =
      .ok (toyJWT.SigningString "HS256" (loginClaims toyConfig 1700000000123456789
          1700000000123456999 ⟨1, "a@x.com", "$toy$1terces", 0, 0⟩) ++ "." ++
        toyJWT.hmac "HS256" toyConfig.JWTSecret (toyJWT.SigningString "HS256"
          (loginClaims toyConfig 1700000000123456789 1700000000123456999
            ⟨1, "a@x.com", "$toy$1terces", 0, 0⟩))) ∧
    NewNumericDate (1700000000123456789 + toyConfig.TokenTTL) >
      NewNumericDate 1700000000123456999 :=
  have h := Login_claims memRepo toyBcrypt toyJWT toyConfig 1700000000123456789
    1700000000123456999 "a@x.com" "secret1" storeWithAlice ⟨1, "a@x.com", "$toy$1terces", 0, 0⟩
    rfl rfl
  ⟨h.1, h.2.2.2.2.2 (by decide)⟩

/-! ## The PostgreSQL user repository -/

/-- C13: when the driver returns an error from the INSERT, CreateUser returns
the id 0 together with ErrEmailExists if the text of the driver error is
"unique constraint violation", and the id 0 together with the driver error
itself otherwise; for a driver error that is not ErrEmailExists itself, the
error returned is ErrEmailExists exactly when the text is that string. -/
theorem CreateUser_driver_error {σ : Type} (pool : Pool σ) (now : Int) (user : User) (s s2 : σ)
    (err : GoError)
    (hdrv : pool.QueryRowScan user.Email user.Password now now s = (.error err, s2)) :
    (err.msg = "unique constraint violation" →
      postgresUserRepository.CreateUser pool now user s =
        ((0, some Sentinel.ErrEmailExists.err), s2)) ∧
    (err.msg ≠ "unique constraint violation" →
      postgresUserRepository.CreateUser pool now user s = ((0, some err), s2)) ∧
    (postgresUserRepository.CreateUser pool now user s).1.1 = 0 ∧
    (err ≠ Sentinel.ErrEmailExists.err →
      ((postgresUserRepository.CreateUser pool now user s).1.2 =
          some Sentinel.ErrEmailExists.err ↔
        err.msg = "unique constraint violation")) := by
  have hlit : err.msg = "unique constraint violation" →
      postgresUserRepository.CreateUser pool now user s =
        ((0, some Sentinel.ErrEmailExists.err), s2) := by
    intro h
    unfold postgresUserRepository.CreateUser
    rw [hdrv]
    simp only [h, if_true]
  have hother : err.msg ≠ "unique constraint violation" →
      postgresUserRepository.CreateUser pool now user s = ((0, some err), s2) := by
    intro h
    unfold postgresUserRepository.CreateUser
    rw [hdrv]
    simp only [h, if_false]
  refine ⟨hlit, hother, ?_, ?_⟩
  · by_cases h : err.msg = "unique constraint violation"
    · rw [hlit h]
    · rw [hother h]
  · intro hne
    constructor
    · intro hres
      by_contra h
      rw [hother h] at hres
      exact hne (Option.some.inj hres)
    · intro h
      rw [hlit h]

/-- C13 at two driver errors: one with the text "unique constraint violation",
one with the text PostgreSQL gives a duplicate key. -/
theorem CreateUser_driver_error_witness :
    postgresUserRepository.CreateUser (failingPool ⟨"unique constraint violation", []⟩) 5
        ⟨0, "a@x.com", "$toy$1terces", 0, 0⟩ () =
      ((0, some Sentinel.ErrEmailExists.err), ()) ∧
    postgresUserRepository.CreateUser
        (failingPool ⟨"ERROR: duplicate key value violates unique constraint (SQLSTATE 23505)",
          []⟩) 5 ⟨0, "a@x.com", "$toy$1terces", 0, 0⟩ () =
      ((0, some ⟨"ERROR: duplicate key value violates unique constraint (SQLSTATE 23505)",
        []⟩), ()) :=
  ⟨(CreateUser_driver_error (failingPool ⟨"unique constraint violation", []⟩) 5
      ⟨0, "a@x.com", "$toy$1terces", 0, 0⟩ () () ⟨"unique constraint violation", []⟩ rfl).1 rfl,
   (CreateUser_driver_error
      (failingPool ⟨"ERROR: duplicate key value violates unique constraint (SQLSTATE 23505)",
        []⟩) 5 ⟨0, "a@x.com", "$toy$1terces", 0, 0⟩ () ()
      ⟨"ERROR: duplicate key value violates unique constraint (SQLSTATE 23505)", []⟩
      rfl).2.1 (by decide)⟩

/-! ## Pagination -/

theorem wrapInt_of_range (x : Int) (h1 : minInt ≤ x) (h2 : x ≤ maxInt) : wrapInt x = x := by
  unfold minInt at h1
  unfold maxInt at h2
  unfold wrapInt
  rw [Int.emod_eq_of_lt (by omega) (by omega)]
  omega

theorem Atoi_range (s : String) : minInt ≤ Atoi s ∧ Atoi s ≤ maxInt := by
  unfold Atoi minInt maxInt
  simp only
  split
  · exact ⟨by decide, by decide⟩
  · rename_i n _
    split
    · split
      · exact ⟨by decide, by decide⟩
      · constructor <;> omega
    · split
      · exact ⟨by decide, by decide⟩
      · constructor <;> omega

/-- C14, the code at the failing input: for page=3 and limit=4611686018427387904
the product (page-1)*limit wraps to the smallest int, so start and end are
negative, neither is clamped, and the slice expression panics. -/
theorem listProducts_bounds_wrap_negative :
    listProducts.bounds "3" "4611686018427387904" 3 =
      (-9223372036854775808, -4611686018427387904) ∧
    listProducts.paginated "3" "4611686018427387904" ["p1", "p2", "p3"] = none := by
  decide

/-- The pagination of listProducts as long as the arithmetic does not wrap:
with page and limit after their defaults, if (page-1)*limit+limit fits the int
range then 0 ≤ start ≤ end ≤ len(filtered), the slice expression does not
panic, and the page holds at most limit products. -/
theorem listProducts_bounds_without_overflow {α : Type} (pageStr limitStr : String)
    (filtered : List α) (page limit : Int)
    (hpage : page = if Atoi pageStr < 1 then 1 else Atoi pageStr)
    (hlimit : limit = if Atoi limitStr < 1 then 5 else Atoi limitStr)
    (hfit : (page - 1) * limit + limit ≤ maxInt) :
    0 ≤ (listProducts.bounds pageStr limitStr filtered.length).1 ∧
    (listProducts.bounds pageStr limitStr filtered.length).1 ≤
      (listProducts.bounds pageStr limitStr filtered.length).2 ∧
    (listProducts.bounds pageStr limitStr filtered.length).2 ≤ (filtered.length : Int) ∧
    ∃ out, listProducts.paginated pageStr limitStr filtered = some out ∧
      (out.length : Int) ≤ limit := by
  obtain ⟨hp1, hp2⟩ := Atoi_range pageStr
  obtain ⟨hl1, hl2⟩ := Atoi_range limitStr
  have hp : 1 ≤ page ∧ page ≤ maxInt := by
    rw [hpage]; unfold maxInt at *; split <;> omega
  have hl : 1 ≤ limit ∧ limit ≤ maxInt := by
    rw [hlimit]; unfold maxInt at *; split <;> omega
  have hm : 0 ≤ (page - 1) * limit := mul_nonneg (by omega) (by omega)
  have hw1 : wrapInt (page - 1) = page - 1 :=
    wrapInt_of_range _ (by unfold minInt; omega) (by omega)
  have hw2 : wrapInt ((page - 1) * limit) = (page - 1) * limit :=
    wrapInt_of_range _ (by unfold minInt; omega) (by omega)
  have hw3 : wrapInt ((page - 1) * limit + limit) = (page - 1) * limit + limit :=
    wrapInt_of_range _ (by unfold minInt; omega) hfit
  have hb : listProducts.bounds pageStr limitStr filtered.length =
      (if (page - 1) * limit > (filtered.length : Int) then (filtered.length : Int)
        else (page - 1) * limit,
       if (page - 1) * limit + limit > (filtered.length : Int) then (filtered.length : Int)
        else (page - 1) * limit + limit) := by
    unfold listProducts.bounds
    simp only [← hpage, ← hlimit, hw1, hw2, hw3]
  generalize (page - 1) * limit = m at hm hb
  have hlen : (0 : Int) ≤ (filtered.length : Int) := Int.ofNat_nonneg _
  have h1 : 0 ≤ (listProducts.bounds pageStr limitStr filtered.length).1 := by
    rw [hb]; simp only; split <;> omega
  have h2 : (listProducts.bounds pageStr limitStr filtered.length).1 ≤
      (listProducts.bounds pageStr limitStr filtered.length).2 := by
    rw [hb]; simp only; split <;> split <;> omega
  have h3 : (listProducts.bounds pageStr limitStr filtered.length).2 ≤
      (filtered.length : Int) := by
    rw [hb]; simp only; split <;> omega
  have h4 : (listProducts.bounds pageStr limitStr filtered.length).2 -
      (listProducts.bounds pageStr limitStr filtered.length).1 ≤ limit := by
    rw [hb]; simp only; split <;> split <;> omega
  refine ⟨h1, h2, h3, ?_⟩
  unfold listProducts.paginated sliceExpr
  simp only [h1, h2, h3, and_self, if_true]
  refine ⟨_, rfl, ?_⟩
  have hle := List.length_take_le
    ((listProducts.bounds pageStr limitStr filtered.length).2.toNat -
      (listProducts.bounds pageStr limitStr filtered.length).1.toNat)
    (List.drop (listProducts.bounds pageStr limitStr filtered.length).1.toNat filtered)
  omega

/-- The pagination at ordinary values: page 2 of size 2 of three products is the
third product; without query values the page is the first five. -/
theorem listProducts_ordinary_pages :
    listProducts.paginated "2" "2" ["p1", "p2", "p3"] = some ["p3"] ∧
    listProducts.paginated "" "" ["p1", "p2", "p3", "p4", "p5", "p6"] =
      some ["p1", "p2", "p3", "p4", "p5"] := by
  decide

end Authservice
